import Mathlib

/-!
# Verification of the Smartscape topology-to-OpenPipeline compiler

This development is a shallow embedding of the topology compiler found in the
extension workspace tooling (`createSmartscapeTopologyWorkflow` and its helper
functions): the conversion of an extension's `topology` section (types, rules,
sources, relationships) into OpenPipeline node / edge processor definitions.

Modelling conventions:
* JavaScript strings are Lean `String`s; scanning (the regular expressions
  `\$prefix\(([^)]+)\)`, `\$eq\(([^)]+)\)` and `\{([^}]+)\}`) is modelled by
  explicit left-to-right scanners over `List Char` (`scanCapture`,
  `scanBraces`) that mirror the leftmost-match semantics of `String.match`.
* Optional / possibly-`undefined` values are `Option`s; JavaScript truthiness
  checks on strings (`!s`) are modelled by also treating `some ""` as falsy.
* The interactive input callback is the resolution port.  A run is
  parameterised by a pure `Callback` (call index → prompt → suggested value →
  answer); every call made is recorded in a trace of `Call` records, and
  computations return `Except (CompileError × List Call) (α × List Call)`,
  mirroring `async` functions that either return a value or throw.
* The mutable `Map` `typeNameMapping` is an association list; `Map.set` is
  modelled by consing the new binding in front (lookup takes the first match,
  which is observationally the same as the JavaScript `Map`).
-/

namespace Smartscape

/-! ## JavaScript string primitives -/

/-- The characters trimmed by JavaScript's `String.prototype.trim` that matter
here (ASCII whitespace). -/
def isJsSpace (c : Char) : Bool :=
  c = ' ' || c = '\t' || c = '\n' || c = '\r' || c = Char.ofNat 11 || c = Char.ofNat 12

/-- `s.trim()` on the character list of a string. -/
def jsTrim (s : List Char) : List Char :=
  ((s.dropWhile isJsSpace).reverse.dropWhile isJsSpace).reverse

/-- Substring containment (`s.includes(pat)`). -/
def containsSub (pat : List Char) : List Char → Bool
  | [] => decide (pat = [])
  | c :: rest => pat.isPrefixOf (c :: rest) || containsSub pat rest

/-- The characters before the first close paren, provided a close paren exists
(the greedy `[^)]+` followed by `\)`, without the non-emptiness requirement,
which is checked by the caller). -/
def grabParen : List Char → Option (List Char)
  | [] => none
  | c :: rest =>
    if c = ')' then some []
    else
      match grabParen rest with
      | some cs => some (c :: cs)
      | none => none

/-- Leftmost match of the regular expression `pat` followed by `([^)]+)\)`,
returning the capture group: at each position, if `pat` matches here and a
non-empty run of non-`)` characters followed by `)` follows it, that run is
returned; otherwise scanning advances one character, exactly as the JavaScript
regex engine does. -/
def scanCapture (pat : List Char) : List Char → Option (List Char)
  | [] => none
  | c :: rest =>
    match (if pat.isPrefixOf (c :: rest) then grabParen ((c :: rest).drop pat.length) else none) with
    | some cap => if cap = [] then scanCapture pat rest else some cap
    | none => scanCapture pat rest

/-- `s.match(/pat\(([^)]+)\)/)`, returning the first capture group as a
string.  `pat` is the literal part of the pattern including the opening
paren, e.g. `"$prefix("`. -/
def jsMatchCapture (pat : String) (s : String) : Option String :=
  match scanCapture pat.data s.data with
  | some cap => some (String.mk cap)
  | none => none

def lbrace : Char := Char.ofNat 123

def rbrace : Char := Char.ofNat 125

mutual

/-- All captures of the global regex `\{([^}]+)\}` over a string: scan for an
opening brace, then collect the capture.  Mirrors `idPattern.match(/.../g)`
followed by stripping the braces from each match. -/
def scanBraces : List Char → List (List Char)
  | [] => []
  | c :: rest => if c = lbrace then scanPending rest [] else scanBraces rest

/-- Inside a `{`: accumulate characters (in reverse) until the closing brace.
An immediately-closed `{}` is not a match (`[^}]+` needs one character), and
a `{` never closed before the end of input matches nothing, nor does anything
after it (there is no later `}` to close any later `{` either) — both exactly
as the JavaScript engine behaves after backtracking. -/
def scanPending : List Char → List Char → List (List Char)
  | [], _ => []
  | c :: rest, acc =>
    if c = rbrace then
      if acc = [] then scanBraces rest
      else acc.reverse :: scanBraces rest
    else scanPending rest (c :: acc)

end

/-- JavaScript truthiness of a possibly-absent string: `undefined` and `""`
are falsy. -/
def jsTruthy : Option String → Option String
  | none => none
  | some s => if s = "" then none else some s

/-! ## Data model (interfaces from the extension manifest) -/

structure SourceDef where
  sourceType : String
  condition : Option String
deriving Repr, DecidableEq

structure DimensionDef where
  key : String
  valuePattern : Option String
deriving Repr, DecidableEq

structure AttributeDef where
  key : String
  pattern : String
deriving Repr, DecidableEq

structure RuleDef where
  idPattern : Option String
  instanceNamePattern : Option String
  requiredDimensions : Option (List DimensionDef)
  attributes : Option (List AttributeDef)
  sources : List SourceDef
deriving Repr, DecidableEq

structure TopologyType where
  name : String
  displayName : String
  rules : List RuleDef
deriving Repr, DecidableEq

structure RelationshipDef where
  fromType : String
  toType : String
  typeOfRelation : String
  sources : List SourceDef
deriving Repr, DecidableEq

structure MetricMetadata where
  key : String
deriving Repr, DecidableEq

structure TopologySection where
  types : Option (List TopologyType)
  relationships : Option (List RelationshipDef)
deriving Repr, DecidableEq

structure ExtensionStub where
  name : String
  topology : Option TopologySection
  metrics : Option (List MetricMetadata)
deriving Repr, DecidableEq

/-! ## Output model (OpenPipeline processors and documents) -/

structure IdComponent where
  idComponent : String
  referencedFieldName : String
deriving Repr, DecidableEq

structure FieldToExtract where
  fieldName : String
  referencedFieldName : String
deriving Repr, DecidableEq

structure NodeNameField where
  sourceFieldName : String
  defaultValue : String
deriving Repr, DecidableEq

/-- Result of `extractNodeNameFromPattern`: either a constant or a field
reference with a default. -/
structure NodeNameRule where
  type : String
  constant : Option String
  field : Option NodeNameField
deriving Repr, DecidableEq

structure SmartscapeNodeBody where
  nodeType : String
  nodeIdFieldName : String
  idComponents : List IdComponent
  extractNode : Bool
  nodeName : NodeNameRule
  fieldsToExtract : Option (List FieldToExtract)
deriving Repr, DecidableEq

structure SmartscapeEdgeBody where
  sourceType : String
  sourceIdFieldName : String
  edgeType : String
  targetType : String
  targetIdFieldName : String
deriving Repr, DecidableEq

structure Processor where
  id : String
  type : String
  matcher : String
  description : String
  smartscapeNode : Option SmartscapeNodeBody
  smartscapeEdge : Option SmartscapeEdgeBody
deriving Repr, DecidableEq

structure SmartscapeExtraction where
  processors : List Processor
deriving Repr, DecidableEq

structure OpenPipelinePipeline where
  customId : String
  displayName : String
  smartscapeNodeExtraction : Option SmartscapeExtraction
  smartscapeEdgeExtraction : Option SmartscapeExtraction
deriving Repr, DecidableEq

structure OpenPipelineDocs where
  metricPipeline : Option OpenPipelinePipeline
  logPipeline : Option OpenPipelinePipeline
deriving Repr, DecidableEq

structure PipelineRef where
  displayName : String
  pipelinePath : String
  configScope : String
deriving Repr, DecidableEq

structure SourceRef where
  displayName : String
  sourcePath : String
  configScope : String
deriving Repr, DecidableEq

structure OpenPipelineConfig where
  pipelines : List PipelineRef
  sources : List SourceRef
deriving Repr, DecidableEq

/-! ## Pure helper functions of the compiler -/

/-- Fields that are not allowed to be extracted in OpenPipeline. -/
def BLOCKED_FIELDS : List String := ["dt.security_context"]

/-- `cleanExtensionName`: the three anchored `replace` calls applied in
sequence. -/
def jsReplaceStart (pat : List Char) (s : List Char) : List Char :=
  if pat.isPrefixOf s then s.drop pat.length else s

def cleanExtensionName (extensionName : String) : String :=
  String.mk
    (jsReplaceStart "custom:".data
      (jsReplaceStart "com.dynatrace.".data
        (jsReplaceStart "custom:com.dynatrace.".data extensionName.data)))

/-- `suggestNewTypeName`: uppercase and replace every `:` with `_`. -/
def suggestNewTypeName (currentName : String) : String :=
  String.mk ((currentName.data.map Char.toUpper).map (fun c => if c = ':' then '_' else c))

/-- `convertConditionToMatcher`: topology source condition to DQL matcher. -/
def convertConditionToMatcher (condition : Option String) : String :=
  match condition with
  | none => "isNotNull(metric.key)"
  | some c =>
    if jsTrim c.data = [] then "isNotNull(metric.key)"
    else
      match jsMatchCapture "$prefix(" c with
      | some pfx => "matchesValue(metric.key, \"" ++ pfx ++ "*\")"
      | none =>
        match jsMatchCapture "$eq(" c with
        | some v => "metric.key == \"" ++ v ++ "\""
        | none =>
          if containsSub "$exists()".data c.data then "isNotNull(metric.key)"
          else "matchesValue(metric.key, \"" ++ c ++ "\")"

/-- The expression produced for one required dimension inside
`convertRequiredDimensionsToMatcher` (the body of its `for` loop, which
pushes exactly one condition per dimension). -/
def dimensionCondition (dim : DimensionDef) : String :=
  match jsTruthy dim.valuePattern with
  | some vp =>
    match jsMatchCapture "$eq(" vp with
    | some v => dim.key ++ " == \"" ++ v ++ "\""
    | none =>
      match jsMatchCapture "$prefix(" vp with
      | some pfx => "matchesValue(" ++ dim.key ++ ", \"" ++ pfx ++ "*\")"
      | none => dim.key ++ " == \"" ++ vp ++ "\""
  | none => "isNotNull(" ++ dim.key ++ ")"

/-- JavaScript `Array.prototype.join`. -/
def jsJoin (separator : String) : List String → String
  | [] => ""
  | [x] => x
  | x :: y :: rest => x ++ separator ++ jsJoin separator (y :: rest)

/-- `convertRequiredDimensionsToMatcher`: all dimension conditions joined with
`" and "`. -/
def convertRequiredDimensionsToMatcher (requiredDimensions : Option (List DimensionDef)) : String :=
  match requiredDimensions with
  | none => "isNotNull(content)"
  | some dims =>
    if dims = [] then "isNotNull(content)"
    else jsJoin " and " (dims.map dimensionCondition)

/-- `findMatchingMetric`: a metric key from the catalogue matching the
condition (first match, list order preserved), or nothing. -/
def findMatchingMetric (condition : Option String) (metrics : Option (List MetricMetadata)) :
    Option String :=
  match jsTruthy condition with
  | none => none
  | some c =>
    match metrics with
    | none => none
    | some [] => none
    | some (m0 :: rest) =>
      match jsMatchCapture "$prefix(" c with
      | some pfx =>
        match (m0 :: rest).find? (fun m => pfx.isPrefixOf m.key) with
        | some m => some m.key
        | none => none
      | none =>
        match jsMatchCapture "$eq(" c with
        | some exactKey =>
          match (m0 :: rest).find? (fun m => m.key = exactKey) with
          | some m => some m.key
          | none => none
        | none =>
          if containsSub "$exists()".data c.data then some m0.key
          else none

/-- `extractIdComponentsFromPattern`: the `{...}` placeholder contents of an
id pattern, in order. -/
def extractIdComponentsFromPattern (idPattern : String) : List String :=
  (scanBraces idPattern.data).map String.mk

/-- `sanitizeIdComponentName`: lowercase, dots to underscores. -/
def sanitizeIdComponentName (fieldName : String) : String :=
  String.mk ((fieldName.data.map Char.toLower).map (fun c => if c = '.' then '_' else c))

/-- `extractFieldNameFromPattern`: inner text of the first placeholder, or the
pattern itself. -/
def extractFieldNameFromPattern (pattern : String) : String :=
  match scanBraces pattern.data with
  | [] => pattern
  | f :: _ => String.mk f

/-- `extractNodeNameFromPattern`: node-name configuration derived from the
instance name pattern. -/
def extractNodeNameFromPattern (instanceNamePattern : Option String) (defaultValue : String) :
    NodeNameRule :=
  match jsTruthy instanceNamePattern with
  | none => { type := "constant", constant := some defaultValue, field := none }
  | some p =>
    match scanBraces p.data with
    | f :: _ =>
      { type := "field", constant := none,
        field := some { sourceFieldName := String.mk f, defaultValue := defaultValue } }
    | [] => { type := "constant", constant := some p, field := none }

/-- `createSmartscapeNodeProcessor`. -/
def createSmartscapeNodeProcessor (type : TopologyType) (newName : String) (source : SourceDef)
    (rule : RuleDef) (extractNode : Bool) (matcher : String) (counter : Nat) : Processor :=
  let idComponents0 : List IdComponent :=
    match jsTruthy rule.idPattern with
    | some ip =>
      (extractIdComponentsFromPattern ip).map
        (fun fieldName =>
          { idComponent := sanitizeIdComponentName fieldName, referencedFieldName := fieldName })
    | none => []
  let idComponents1 : List IdComponent :=
    if idComponents0 = [] then
      match rule.requiredDimensions with
      | some dims =>
        dims.map (fun dim =>
          { idComponent := sanitizeIdComponentName dim.key, referencedFieldName := dim.key })
      | none => []
    else idComponents0
  let idComponents : List IdComponent :=
    if idComponents1 = [] then
      let defaultIdKey := String.mk (type.name.data.map Char.toLower) ++ ".id"
      [{ idComponent := sanitizeIdComponentName defaultIdKey, referencedFieldName := defaultIdKey }]
    else idComponents1
  let fieldsToExtract : List FieldToExtract :=
    (((match rule.attributes with | some attrs => attrs | none => []) : List AttributeDef).filter
        (fun attr => ¬ BLOCKED_FIELDS.contains attr.key)).map
      (fun attr =>
        { fieldName := attr.key, referencedFieldName := extractFieldNameFromPattern attr.pattern })
  let processorId :=
    newName ++ "_" ++ (if extractNode then "node" else "entity") ++ "_" ++ source.sourceType
      ++ "_" ++ toString counter
  let description :=
    if extractNode then "Extract node for " ++ type.displayName
    else "Create entity for " ++ type.displayName
  let nodeName := extractNodeNameFromPattern rule.instanceNamePattern newName
  { id := processorId
    type := "smartscapeNode"
    matcher := matcher
    description := description
    smartscapeNode := some
      { nodeType := newName
        nodeIdFieldName := "node_id"
        idComponents := idComponents
        extractNode := extractNode
        nodeName := nodeName
        fieldsToExtract := if fieldsToExtract = [] then none else some fieldsToExtract }
    smartscapeEdge := none }

/-- `createSmartscapeEdgeProcessor`. -/
def createSmartscapeEdgeProcessor (sourceTypeName targetTypeName edgeType matcher : String)
    (source : SourceDef) (counter : Nat) : Processor :=
  let processorId :=
    sourceTypeName ++ "_to_" ++ targetTypeName ++ "_" ++ edgeType ++ "_" ++ source.sourceType
      ++ "_" ++ toString counter
  let description :=
    "Create " ++ edgeType ++ " relationship from " ++ sourceTypeName ++ " to " ++ targetTypeName
  { id := processorId
    type := "smartscapeEdge"
    matcher := matcher
    description := description
    smartscapeNode := none
    smartscapeEdge := some
      { sourceType := sourceTypeName
        sourceIdFieldName := "node_id"
        edgeType := edgeType
        targetType := targetTypeName
        targetIdFieldName := "node_id" } }

/-- `RELATIONSHIP_TYPE_MAPPING`: old relationship kinds to new edge kinds. -/
def RELATIONSHIP_TYPE_MAPPING : List (String × String) :=
  [("CHILD_OF", "belongs_to"), ("RUNS_ON", "runs_on"), ("INSTANCE_OF", "instance_of"),
   ("PART_OF", "is_part_of"), ("CALLS", "calls"), ("SAME_AS", "same_as")]

/-! ## The resolution port and the error/trace monad -/

/-- One interaction with the resolution port. -/
structure Call where
  prompt : String
  suggested : String
  answer : Option String
deriving Repr, DecidableEq

/-- A resolution port: answer as a function of the call index, the prompt and
the suggested value (`null` = cancelled). -/
def Callback : Type := Nat → String → String → Option String

/-- The automatic port: always return the suggested value
(`autoInputCallback`). -/
def autoCallback : Callback := fun _ _ suggestedValue => some suggestedValue

inductive CompileError where
  | missingTopology : CompileError
  | cancelled : CompileError
  | unknownRelationship : String → CompileError
deriving Repr, DecidableEq

/-- A compilation step: returns a value plus the updated call trace, or an
error plus the trace at the point of failure. -/
def CompileM (α : Type) : Type := Except (CompileError × List Call) (α × List Call)

/-- Sequencing of compilation steps (the `await`/`throw` control flow). -/
def cBind {α β : Type} (r : CompileM α) (k : α → List Call → CompileM β) : CompileM β :=
  match r with
  | .error e => .error e
  | .ok (v, tr) => k v tr

/-- One call through the resolution port; `null` and `""` answers throw the
cancellation error (`if (!userInput) throw ...`). -/
def askInput (cb : Callback) (tr : List Call) (prompt suggestedValue : String) :
    CompileM String :=
  let answer := cb tr.length prompt suggestedValue
  let tr' := tr ++ [{ prompt := prompt, suggested := suggestedValue, answer := answer }]
  match answer with
  | none => .error (.cancelled, tr')
  | some s => if s = "" then .error (.cancelled, tr') else .ok (s, tr')

/-! ## Node compilation (`createProcessorsFromTopology`) -/

/-- The mutable state of the node-compilation loops: the two processor lists,
the two counters, and the set of entity types that already have an
`extractNode: true` processor. -/
structure TopoAcc where
  metricsProcessors : List Processor
  logsProcessors : List Processor
  metricsCounter : Nat
  logsCounter : Nat
  extractedTypes : List String
deriving Repr

/-- `processMetricsSource`: entity processor always, node processor only if
the resolved type has none yet. -/
def processMetricsSource (cb : Callback) (type : TopologyType) (newName : String)
    (source : SourceDef) (rule : RuleDef) (metrics : Option (List MetricMetadata))
    (processorCounter : Nat) (extractedTypes : List String) (tr : List Call) :
    CompileM (List Processor × List String) :=
  let suggestedEntityMatcher := convertConditionToMatcher source.condition
  cBind
    (askInput cb tr
      ("Enter matcher condition for entity extraction (extractNode: false) for \""
        ++ type.displayName ++ "\"")
      suggestedEntityMatcher)
    (fun entityMatcher tr1 =>
      let entityProcessor :=
        createSmartscapeNodeProcessor type newName source rule false entityMatcher processorCounter
      if extractedTypes.contains newName then
        .ok (([entityProcessor], extractedTypes), tr1)
      else
        let matchingMetric := findMatchingMetric source.condition metrics
        let suggestedNodeMatcher :=
          match matchingMetric with
          | some mk0 => "matchesValue(metric.key, \"" ++ mk0 ++ "\")"
          | none => suggestedEntityMatcher
        cBind
          (askInput cb tr1
            ("Enter matcher condition for node extraction (extractNode: true) for \""
              ++ type.displayName ++ "\"")
            suggestedNodeMatcher)
          (fun nodeMatcher tr2 =>
            let nodeProcessor :=
              createSmartscapeNodeProcessor type newName source rule true nodeMatcher
                (processorCounter + 1)
            .ok (([entityProcessor, nodeProcessor], newName :: extractedTypes), tr2)))

/-- `processLogsSource`. -/
def processLogsSource (cb : Callback) (type : TopologyType) (newName : String)
    (source : SourceDef) (rule : RuleDef) (processorCounter : Nat)
    (extractedTypes : List String) (tr : List Call) :
    CompileM (List Processor × List String) :=
  let suggestedEntityMatcher := convertRequiredDimensionsToMatcher rule.requiredDimensions
  cBind
    (askInput cb tr
      ("Enter matcher condition for entity extraction (extractNode: false) for \""
        ++ type.displayName ++ "\" (Logs)")
      suggestedEntityMatcher)
    (fun entityMatcher tr1 =>
      let entityProcessor :=
        createSmartscapeNodeProcessor type newName source rule false entityMatcher processorCounter
      if extractedTypes.contains newName then
        .ok (([entityProcessor], extractedTypes), tr1)
      else
        cBind
          (askInput cb tr1
            ("Enter matcher condition for node extraction (extractNode: true) for \""
              ++ type.displayName ++ "\" (Logs)")
            suggestedEntityMatcher)
          (fun nodeMatcher tr2 =>
            let nodeProcessor :=
              createSmartscapeNodeProcessor type newName source rule true nodeMatcher
                (processorCounter + 1)
            .ok (([entityProcessor, nodeProcessor], newName :: extractedTypes), tr2)))

/-- The `for (const source of rule.sources)` loop: Metrics and Logs sources
are processed, any other source category is silently skipped. -/
def sourcesLoop (cb : Callback) (type : TopologyType) (newName : String) (rule : RuleDef)
    (metrics : Option (List MetricMetadata)) :
    List SourceDef → TopoAcc → List Call → CompileM TopoAcc
  | [], acc, tr => .ok (acc, tr)
  | source :: rest, acc, tr =>
    if source.sourceType = "Metrics" then
      cBind
        (processMetricsSource cb type newName source rule metrics acc.metricsCounter
          acc.extractedTypes tr)
        (fun out tr1 =>
          sourcesLoop cb type newName rule metrics rest
            { acc with
              metricsProcessors := acc.metricsProcessors ++ out.1
              metricsCounter := acc.metricsCounter + out.1.length
              extractedTypes := out.2 } tr1)
    else if source.sourceType = "Logs" then
      cBind
        (processLogsSource cb type newName source rule acc.logsCounter acc.extractedTypes tr)
        (fun out tr1 =>
          sourcesLoop cb type newName rule metrics rest
            { acc with
              logsProcessors := acc.logsProcessors ++ out.1
              logsCounter := acc.logsCounter + out.1.length
              extractedTypes := out.2 } tr1)
    else sourcesLoop cb type newName rule metrics rest acc tr

/-- The `for (const rule of type.rules)` loop. -/
def rulesLoop (cb : Callback) (type : TopologyType) (newName : String)
    (metrics : Option (List MetricMetadata)) :
    List RuleDef → TopoAcc → List Call → CompileM TopoAcc
  | [], acc, tr => .ok (acc, tr)
  | rule :: rest, acc, tr =>
    cBind (sourcesLoop cb type newName rule metrics rule.sources acc tr)
      (fun acc1 tr1 => rulesLoop cb type newName metrics rest acc1 tr1)

/-- The `for (const type of types)` loop: ask for the new type name, record
it in the name mapping, then process the type's rules. -/
def typesLoop (cb : Callback) (metrics : Option (List MetricMetadata)) :
    List TopologyType → List (String × String) → TopoAcc → List Call →
    CompileM (List (String × String) × TopoAcc)
  | [], mapping, acc, tr => .ok ((mapping, acc), tr)
  | type :: rest, mapping, acc, tr =>
    cBind
      (askInput cb tr ("Enter new name for type \"" ++ type.name ++ "\"")
        (suggestNewTypeName type.name))
      (fun newName tr1 =>
        cBind (rulesLoop cb type newName metrics type.rules acc tr1)
          (fun acc1 tr2 => typesLoop cb metrics rest ((type.name, newName) :: mapping) acc1 tr2))

/-- `createProcessorsFromTopology`: convert topology types to smartscape node
processors, returning the metrics processors, the logs processors and the
updated type-name mapping. -/
def createProcessorsFromTopology (cb : Callback) (types : List TopologyType)
    (metrics : Option (List MetricMetadata)) (typeNameMapping : List (String × String))
    (tr : List Call) : CompileM (List Processor × List Processor × List (String × String)) :=
  cBind (typesLoop cb metrics types typeNameMapping ⟨[], [], 0, 0, []⟩ tr)
    (fun out tr1 => .ok ((out.2.metricsProcessors, out.2.logsProcessors, out.1), tr1))

/-! ## Edge compilation (`createProcessorsFromRelationships`) -/

/-- Association-list lookup, the `Map.get` / record-index operation. -/
def mapGet (m : List (String × String)) (key : String) : Option String :=
  match m with
  | [] => none
  | (a, b) :: rest => if a = key then some b else mapGet rest key

/-- Resolve a relationship endpoint name: a truthy mapping entry is used as
is; otherwise the port is asked and the answer recorded into the mapping. -/
def resolveTypeName (cb : Callback) (mapping : List (String × String)) (typeName : String)
    (prompt : String) (tr : List Call) : CompileM (String × List (String × String)) :=
  match jsTruthy (mapGet mapping typeName) with
  | some v => .ok ((v, mapping), tr)
  | none =>
    cBind (askInput cb tr prompt (suggestNewTypeName typeName))
      (fun v tr1 => .ok ((v, (typeName, v) :: mapping), tr1))

/-- `processMetricsRelationship`. -/
def processMetricsRelationship (cb : Callback) (relationship : RelationshipDef)
    (fromTypeName toTypeName edgeType : String) (source : SourceDef) (counter : Nat)
    (tr : List Call) : CompileM Processor :=
  let suggestedMatcher := convertConditionToMatcher source.condition
  cBind
    (askInput cb tr
      ("Enter matcher condition for relationship \"" ++ relationship.fromType ++ "\" → \""
        ++ relationship.toType ++ "\" (" ++ edgeType ++ ")")
      suggestedMatcher)
    (fun matcher tr1 =>
      .ok (createSmartscapeEdgeProcessor fromTypeName toTypeName edgeType matcher source counter,
        tr1))

/-- `processLogsRelationship`: a condition-less logs source falls back to the
literal `isNotNull(content)`. -/
def processLogsRelationship (cb : Callback) (relationship : RelationshipDef)
    (fromTypeName toTypeName edgeType : String) (source : SourceDef) (counter : Nat)
    (tr : List Call) : CompileM Processor :=
  let suggestedMatcher :=
    match jsTruthy source.condition with
    | some c => convertConditionToMatcher (some c)
    | none => "isNotNull(content)"
  cBind
    (askInput cb tr
      ("Enter matcher condition for relationship \"" ++ relationship.fromType ++ "\" → \""
        ++ relationship.toType ++ "\" (" ++ edgeType ++ ") (Logs)")
      suggestedMatcher)
    (fun matcher tr1 =>
      .ok (createSmartscapeEdgeProcessor fromTypeName toTypeName edgeType matcher source counter,
        tr1))

/-- The edge-compilation accumulator: metrics/logs edge processors and the
two counters. -/
structure EdgeAcc where
  metricsProcessors : List Processor
  logsProcessors : List Processor
  metricsCounter : Nat
  logsCounter : Nat
deriving Repr

/-- The `for (const source of relationship.sources)` loop of edge
compilation. -/
def relSourcesLoop (cb : Callback) (relationship : RelationshipDef)
    (fromTypeName toTypeName edgeType : String) :
    List SourceDef → EdgeAcc → List Call → CompileM EdgeAcc
  | [], acc, tr => .ok (acc, tr)
  | source :: rest, acc, tr =>
    if source.sourceType = "Metrics" then
      cBind
        (processMetricsRelationship cb relationship fromTypeName toTypeName edgeType source
          acc.metricsCounter tr)
        (fun p tr1 =>
          relSourcesLoop cb relationship fromTypeName toTypeName edgeType rest
            { acc with
              metricsProcessors := acc.metricsProcessors ++ [p]
              metricsCounter := acc.metricsCounter + 1 } tr1)
    else if source.sourceType = "Logs" then
      cBind
        (processLogsRelationship cb relationship fromTypeName toTypeName edgeType source
          acc.logsCounter tr)
        (fun p tr1 =>
          relSourcesLoop cb relationship fromTypeName toTypeName edgeType rest
            { acc with
              logsProcessors := acc.logsProcessors ++ [p]
              logsCounter := acc.logsCounter + 1 } tr1)
    else relSourcesLoop cb relationship fromTypeName toTypeName edgeType rest acc tr

/-- The `for (const relationship of relationships)` loop: resolve both
endpoint names (prompting for unmapped ones), map the relationship kind
(throwing on an unknown kind), confirm the edge kind, then emit one edge
processor per Metrics/Logs source. -/
def relationshipsLoop (cb : Callback) :
    List RelationshipDef → List (String × String) → EdgeAcc → List Call →
    CompileM (List (String × String) × EdgeAcc)
  | [], mapping, acc, tr => .ok ((mapping, acc), tr)
  | relationship :: rest, mapping, acc, tr =>
    cBind
      (resolveTypeName cb mapping relationship.fromType
        ("Enter new name for source type \"" ++ relationship.fromType ++ "\"") tr)
      (fun fromOut tr1 =>
        cBind
          (resolveTypeName cb fromOut.2 relationship.toType
            ("Enter new name for target type \"" ++ relationship.toType ++ "\"") tr1)
          (fun toOut tr2 =>
            match mapGet RELATIONSHIP_TYPE_MAPPING relationship.typeOfRelation with
            | none => .error (.unknownRelationship relationship.typeOfRelation, tr2)
            | some suggestedEdgeType =>
              cBind
                (askInput cb tr2
                  ("Enter edge type for \"" ++ relationship.fromType ++ "\" → \""
                    ++ relationship.toType ++ "\" (was " ++ relationship.typeOfRelation ++ ")")
                  suggestedEdgeType)
                (fun edgeType tr3 =>
                  cBind
                    (relSourcesLoop cb relationship fromOut.1 toOut.1 edgeType
                      relationship.sources acc tr3)
                    (fun acc1 tr4 => relationshipsLoop cb rest toOut.2 acc1 tr4))))

/-- `createProcessorsFromRelationships`. -/
def createProcessorsFromRelationships (cb : Callback) (relationships : List RelationshipDef)
    (typeNameMapping : List (String × String)) (tr : List Call) :
    CompileM (List Processor × List Processor × List (String × String)) :=
  cBind (relationshipsLoop cb relationships typeNameMapping ⟨[], [], 0, 0⟩ tr)
    (fun out tr1 => .ok ((out.2.metricsProcessors, out.2.logsProcessors, out.1), tr1))

/-! ## Pipeline assembly (`convertTopologyToOpenPipeline`) -/

def METRIC_PIPELINE_FILE : String := "metrics.pipeline.json"
def METRIC_SOURCE_FILE : String := "metrics.source.json"
def LOG_PIPELINE_FILE : String := "logs.pipeline.json"
def LOG_SOURCE_FILE : String := "logs.source.json"

/-- `convertTopologyToOpenPipeline`: the whole compilation run.  Throws on a
missing topology section; runs node compilation then edge compilation (the
latter consulting the name mapping built by the former); assembles the
per-category pipeline documents and the manifest-patch payload. -/
def convertTopologyToOpenPipeline (cb : Callback) (extension : ExtensionStub) :
    CompileM (OpenPipelineConfig × OpenPipelineDocs) :=
  match extension.topology with
  | none => .error (.missingTopology, [])
  | some topology =>
    cBind
      (match topology.types with
        | some types => createProcessorsFromTopology cb types extension.metrics [] []
        | none => .ok (([], [], []), []))
      (fun nodeOut tr1 =>
        cBind
          (match topology.relationships with
            | some relationships =>
              createProcessorsFromRelationships cb relationships nodeOut.2.2 tr1
            | none => .ok (([], [], nodeOut.2.2), tr1))
          (fun edgeOut tr2 =>
            let metricsNodeProcessors := nodeOut.1
            let logsNodeProcessors := nodeOut.2.1
            let metricsEdgeProcessors := edgeOut.1
            let logsEdgeProcessors := edgeOut.2.1
            let cleanedName := cleanExtensionName extension.name
            let displayName := "ext:" ++ cleanedName
            let metricPipeline : Option OpenPipelinePipeline :=
              if metricsNodeProcessors.length > 0 ∨ metricsEdgeProcessors.length > 0 then
                some
                  { customId := cleanedName ++ "-metrics"
                    displayName := displayName
                    smartscapeNodeExtraction :=
                      if metricsNodeProcessors.length > 0 then
                        some { processors := metricsNodeProcessors }
                      else none
                    smartscapeEdgeExtraction :=
                      if metricsEdgeProcessors.length > 0 then
                        some { processors := metricsEdgeProcessors }
                      else none }
              else none
            let logPipeline : Option OpenPipelinePipeline :=
              if logsNodeProcessors.length > 0 ∨ logsEdgeProcessors.length > 0 then
                some
                  { customId := cleanedName ++ "-logs"
                    displayName := displayName
                    smartscapeNodeExtraction :=
                      if logsNodeProcessors.length > 0 then
                        some { processors := logsNodeProcessors }
                      else none
                    smartscapeEdgeExtraction :=
                      if logsEdgeProcessors.length > 0 then
                        some { processors := logsEdgeProcessors }
                      else none }
              else none
            let pipelines : List PipelineRef :=
              (if metricsNodeProcessors.length > 0 ∨ metricsEdgeProcessors.length > 0 then
                [{ displayName := displayName
                   pipelinePath := "openpipeline/" ++ METRIC_PIPELINE_FILE
                   configScope := "metrics" }]
              else []) ++
              (if logsNodeProcessors.length > 0 ∨ logsEdgeProcessors.length > 0 then
                [{ displayName := displayName
                   pipelinePath := "openpipeline/" ++ LOG_PIPELINE_FILE
                   configScope := "logs" }]
              else [])
            let sources : List SourceRef :=
              (if metricsNodeProcessors.length > 0 ∨ metricsEdgeProcessors.length > 0 then
                [{ displayName := displayName
                   sourcePath := "openpipeline/" ++ METRIC_SOURCE_FILE
                   configScope := "metrics" }]
              else []) ++
              (if logsNodeProcessors.length > 0 ∨ logsEdgeProcessors.length > 0 then
                [{ displayName := displayName
                   sourcePath := "openpipeline/" ++ LOG_SOURCE_FILE
                   configScope := "logs" }]
              else [])
            .ok (({ pipelines := pipelines, sources := sources },
                   { metricPipeline := metricPipeline, logPipeline := logPipeline }), tr2)))

/-! ## Definitions used in the statements of the verified properties -/

/-- Extract the payload of a successful compilation step (used to name the
concrete result of an example run inside closed statements). -/
def okD {α : Type} (r : CompileM α) (dflt : α × List Call) : α × List Call :=
  match r with
  | .ok v => v
  | .error _ => dflt

/-- Does this processor extract a node (`extractNode: true`) for the given
resolved entity-type name? -/
def isNodeTrue (entityTypeName : String) (p : Processor) : Bool :=
  match p.smartscapeNode with
  | some sn => sn.extractNode && (sn.nodeType == entityTypeName)
  | none => false

/-- Does this processor carry the given resolved entity-type name? -/
def hasNodeType (entityTypeName : String) (p : Processor) : Bool :=
  match p.smartscapeNode with
  | some sn => sn.nodeType == entityTypeName
  | none => false

/-- Number of node-extraction (`extractNode: true`) processors for a given
resolved entity-type name. -/
def nodeTrueCount (entityTypeName : String) (ps : List Processor) : Nat :=
  ps.countP (isNodeTrue entityTypeName)

/-- A node-variant processor carries at least one identity component. -/
def idComponentsOk (p : Processor) : Bool :=
  match p.smartscapeNode with
  | some sn => decide (sn.idComponents ≠ [])
  | none => true

/-- A resolution-port call that was answered (neither `null` nor `""`). -/
def answeredCall (c : Call) : Bool :=
  match c.answer with
  | none => false
  | some s => s != ""

/-- Every recorded call was answered. -/
def AllAnswered (tr : List Call) : Prop := ∀ c ∈ tr, answeredCall c = true

/-- A compilation result aborts at the first unanswered port call: successful
runs (and non-cancellation errors) answered every call they made, and a
cancellation error happens exactly at the first unanswered call — nothing is
asked after it and no processor list is returned alongside it. -/
def AbortsAtFirstUnanswered {α : Type} (r : CompileM α) : Prop :=
  match r with
  | .ok (_, tr) => AllAnswered tr
  | .error (.cancelled, tr) =>
      ∃ pre c, tr = pre ++ [c] ∧ AllAnswered pre ∧ answeredCall c = false
  | .error (_, tr) => AllAnswered tr

/-- The node-extraction bookkeeping invariant for one resolved entity-type
name: the number of `extractNode: true` processors for that name is 1 exactly
when the name is in the already-extracted set, and some processor mentions
the name exactly when it is in that set. -/
def NodePair (entityTypeName : String) (ps : List Processor) (ext : List String) : Prop :=
  nodeTrueCount entityTypeName ps = (if ext.contains entityTypeName then 1 else 0)
  ∧ ps.any (hasNodeType entityTypeName) = ext.contains entityTypeName

/-- The invariant carried through the node-compilation loops. -/
def TopoInvariant (acc : TopoAcc) : Prop :=
  (∀ entityTypeName,
      NodePair entityTypeName (acc.metricsProcessors ++ acc.logsProcessors) acc.extractedTypes)
  ∧ (∀ p ∈ acc.metricsProcessors ++ acc.logsProcessors, idComponentsOk p = true)

/-- The name-mapping invariant: no duplicate keys (so a binding, once set, is
never shadowed) and no empty values (so a stored binding is always truthy). -/
def MappingOk (m : List (String × String)) : Prop :=
  (m.map Prod.fst).Nodup ∧ ∀ kv ∈ m, kv.2 ≠ ""

/-- A port answering from a fixed list by call index, falling back to the
suggested value once the list is exhausted. -/
def indexedCallback (answers : List String) : Callback :=
  fun i _ suggestedValue =>
    match answers.get? i with
    | some a => some a
    | none => some suggestedValue

/-! ## Example inputs for the concrete runs -/

/-- The scenario type: `custom:com.dynatrace.foo:bar` with one rule, an id
pattern with one placeholder, and one Metrics source with a `$prefix`
condition. -/
def c4Type : TopologyType :=
  { name := "custom:com.dynatrace.foo:bar"
    displayName := "Foo Bar"
    rules :=
      [{ idPattern := some "bar-\x7bid\x7d"
         instanceNamePattern := none
         requiredDimensions := none
         attributes := none
         sources := [{ sourceType := "Metrics", condition := some "$prefix(foo.bar.)" }] }] }

/-- A relationship whose kind is outside the fixed enumeration. -/
def relFollows : RelationshipDef :=
  { fromType := "a", toType := "b", typeOfRelation := "FOLLOWS", sources := [] }

/-- A minimal topology type with no rules, named `a`. -/
def typeA : TopologyType := { name := "a", displayName := "A", rules := [] }

/-- A topology type named `t1` with one Metrics source. -/
def exType1 : TopologyType :=
  { name := "t1"
    displayName := "T1"
    rules :=
      [{ idPattern := none
         instanceNamePattern := none
         requiredDimensions := none
         attributes := none
         sources :=
           [{ sourceType := "Metrics", condition := some "$prefix(one.)" },
            { sourceType := "Metrics", condition := some "$prefix(two.)" }] }] }

/-- A second topology type named `t2` with a Logs source. -/
def exType2 : TopologyType :=
  { name := "t2"
    displayName := "T2"
    rules :=
      [{ idPattern := none
         instanceNamePattern := none
         requiredDimensions := some [{ key := "dim.a", valuePattern := none }]
         attributes := none
         sources := [{ sourceType := "Logs", condition := none }] }] }

/-- A relationship with a known kind and one Metrics source. -/
def relChild : RelationshipDef :=
  { fromType := "a", toType := "b", typeOfRelation := "CHILD_OF",
    sources := [{ sourceType := "Metrics", condition := none }] }

/-- The result of the example node-compilation run over `exType1, exType2`
with the automatic port. -/
def exRun1 : (List Processor × List Processor × List (String × String)) × List Call :=
  okD (createProcessorsFromTopology autoCallback [exType1, exType2] none [] [])
    (([], [], []), [])

/-! # Verified properties

General-purpose lemmas first, then one theorem per property (with its
counterexample and witness runs where applicable). -/

theorem isPrefixOf_append_left (a b c : List Char) :
    (a ++ b).isPrefixOf (a ++ c) = b.isPrefixOf c := by
  induction a with
  | nil => rfl
  | cons x xs ih => simpa [List.isPrefixOf] using ih

theorem isPrefixOf_self_append (p t : List Char) : p.isPrefixOf (p ++ t) = true := by
  rw [List.isPrefixOf_iff_prefix]
  exact List.prefix_append p t

theorem jsReplaceStart_suffix (p l : List Char) : jsReplaceStart p l <:+ l := by
  unfold jsReplaceStart
  split
  · exact List.drop_suffix _ _
  · exact List.suffix_refl _

/-! ### Lemmas about the condition mini-language scanners -/

theorem scanCapture_cons (pat : List Char) (c : Char) (rest : List Char) :
    scanCapture pat (c :: rest) =
      match (if pat.isPrefixOf (c :: rest) then grabParen ((c :: rest).drop pat.length)
          else none) with
      | some cap => if cap = [] then scanCapture pat rest else some cap
      | none => scanCapture pat rest := rfl

theorem grabParen_append (X b : List Char) (hX : ')' ∉ X) :
    grabParen (X ++ ')' :: b) = some X := by
  induction X with
  | nil => simp [grabParen]
  | cons c cs ih =>
    have hc : c ≠ ')' := fun h => hX (h ▸ List.mem_cons_self c cs)
    have hcs : ')' ∉ cs := fun h => hX (List.mem_cons_of_mem c h)
    simp [grabParen, hc, ih hcs]

/-- A condition of the shape `a ++ "$f(" ++ X ++ ")" ++ b`, with no `$` in
`a` (so no earlier match attempt can fire) and a non-empty `)`-free capture
`X`, is matched by the scanner with capture `X`. -/
theorem scanCapture_append (ptail a X b : List Char)
    (ha : '$' ∉ a) (hX : X ≠ []) (hXr : ')' ∉ X) :
    scanCapture ('$' :: ptail) (a ++ (('$' :: ptail) ++ (X ++ ')' :: b))) = some X := by
  induction a with
  | nil =>
    rw [List.nil_append, List.cons_append, scanCapture_cons, ← List.cons_append,
      isPrefixOf_self_append]
    simp only [if_true, List.drop_left, grabParen_append X b hXr]
    simp [hX]
  | cons c a ih =>
    have hc : ¬ ('$' = c) := fun h => ha (h ▸ List.mem_cons_self c a)
    have ha' : '$' ∉ a := fun h => ha (List.mem_cons_of_mem c h)
    rw [List.cons_append, scanCapture_cons]
    have hcb : (('$' : Char) == c) = false := beq_eq_false_iff_ne.mpr hc
    have hpre : (('$' :: ptail).isPrefixOf (c :: (a ++ (('$' :: ptail) ++ (X ++ ')' :: b)))))
        = false := by
      simp [List.isPrefixOf, hcb]
    rw [hpre]
    simpa using ih ha'

/-- String-level version of `scanCapture_append` for the `$prefix(` / `$eq(`
patterns. -/
theorem jsMatchCapture_eq_some (ptail : List Char) (pat c X : String) (a b : List Char)
    (hpat : pat.data = '$' :: ptail)
    (hc : c.data = a ++ pat.data ++ X.data ++ ')' :: b)
    (ha : '$' ∉ a) (hX : X.data ≠ []) (hXr : ')' ∉ X.data) :
    jsMatchCapture pat c = some X := by
  unfold jsMatchCapture
  rw [hc, hpat, List.append_assoc, List.append_assoc,
    scanCapture_append ptail a X.data b ha hX hXr]

/-- A string containing a non-whitespace character does not trim to the empty
string. -/
theorem jsTrim_ne_nil (l : List Char) (c : Char) (hc : c ∈ l) (hs : isJsSpace c = false) :
    jsTrim l ≠ [] := by
  unfold jsTrim
  intro h
  rw [List.reverse_eq_nil_iff, List.dropWhile_eq_nil_iff] at h
  have h2 : ∀ x ∈ l.dropWhile isJsSpace, isJsSpace x = true := by
    intro x hx
    exact h x (List.mem_reverse.mpr hx)
  rw [← List.takeWhile_append_dropWhile (p := isJsSpace) (l := l)] at hc
  rcases List.mem_append.mp hc with h3 | h3
  · exact absurd (List.mem_takeWhile_imp h3) (by simp [hs])
  · exact absurd (h2 c h3) (by simp [hs])

/-! ## C8 — extension-name cleaning -/

/-- C8, counterexample: the three prefix-stripping rules are applied in
sequence, not first-match-only-once.  On `"com.dynatrace.custom:foo"` the
`com.dynatrace.` rule fires and then the `custom:` rule fires on the result,
so the output is `"foo"`, not the single-strip output `"custom:foo"` the
claim predicts. -/
theorem claim8_clean_name_counterexample :
    cleanExtensionName "com.dynatrace.custom:foo" = "foo" ∧
      ("custom:foo" : String) ≠ "foo" := by
  exact ⟨rfl, by decide⟩

/-- C8, amended: `cleanExtensionName` applies its three anchored strips in
sequence — `custom:com.dynatrace.`, then `com.dynatrace.`, then `custom:` —
each at most once, each to the result of the previous strip (so chained rules
can remove more than one prefix).  The output is always a suffix of the
input, and whenever the rules that come after the one that matched do not
match the stripped remainder, exactly one prefix is removed. -/
theorem claim8_clean_name_amended (s r : String) :
    ((cleanExtensionName s).data <:+ s.data)
  ∧ (s.data = "custom:com.dynatrace.".data ++ r.data →
      "com.dynatrace.".data.isPrefixOf r.data = false →
      "custom:".data.isPrefixOf r.data = false →
      cleanExtensionName s = r)
  ∧ (s.data = "com.dynatrace.".data ++ r.data →
      "custom:".data.isPrefixOf r.data = false →
      cleanExtensionName s = r)
  ∧ (s.data = "custom:".data ++ r.data →
      "com.dynatrace.".data.isPrefixOf r.data = false →
      cleanExtensionName s = r) := by
  refine ⟨?_, ?_, ?_, ?_⟩
  · show (String.mk _).data <:+ s.data
    exact ((jsReplaceStart_suffix _ _).trans
      ((jsReplaceStart_suffix _ _).trans (jsReplaceStart_suffix _ _)))
  · intro h h2 h3
    unfold cleanExtensionName
    rw [h]
    simp [jsReplaceStart, isPrefixOf_self_append, h2, h3, List.drop_left]
  · intro h h3
    unfold cleanExtensionName
    rw [h]
    have h1 : List.isPrefixOf "custom:com.dynatrace.".data ("com.dynatrace.".data ++ r.data)
        = false := rfl
    simp [jsReplaceStart, h1, isPrefixOf_self_append, h3, List.drop_left]
  · intro h h2
    unfold cleanExtensionName
    rw [h]
    have h1 : List.isPrefixOf "custom:com.dynatrace.".data ("custom:".data ++ r.data)
        = List.isPrefixOf "com.dynatrace.".data r.data := by
      have e : ("custom:com.dynatrace.").data
          = "custom:".data ++ "com.dynatrace.".data := rfl
      rw [e, isPrefixOf_append_left]
    have h4 : List.isPrefixOf "com.dynatrace.".data ("custom:".data ++ r.data) = false := rfl
    simp [jsReplaceStart, h1, h2, h4, isPrefixOf_self_append, List.drop_left]

/-- C8, witness: a name matching only the first rule loses exactly that one
prefix. -/
theorem claim8_clean_name_amended_witness :
    cleanExtensionName "custom:com.dynatrace.mulesoft" = "mulesoft" :=
  (claim8_clean_name_amended "custom:com.dynatrace.mulesoft" "mulesoft").2.1 rfl rfl rfl

/-! ## C4 — the `custom:com.dynatrace.foo:bar` scenario -/

/-- C4, counterexample: in the scenario (one rule, idPattern `bar-{id}`, one
Metrics source `$prefix(foo.bar.)`, auto-accepted suggestions) the resolved
type name is `suggestNewTypeName "custom:com.dynatrace.foo:bar"
= "CUSTOM_COM.DYNATRACE.FOO_BAR"` — the suggestion uppercases and replaces
colons but strips no prefix — so both emitted processors carry that node
type, not `"FOO_BAR"` as the claim states. -/
theorem claim4_scenario_counterexample :
    ((okD (createProcessorsFromTopology autoCallback [c4Type] none [] [])
        (([], [], []), [])).1.1.map (fun p => p.smartscapeNode.map (fun sn => sn.nodeType)))
      = [some "CUSTOM_COM.DYNATRACE.FOO_BAR", some "CUSTOM_COM.DYNATRACE.FOO_BAR"]
  ∧ ("CUSTOM_COM.DYNATRACE.FOO_BAR" : String) ≠ "FOO_BAR" := by
  exact ⟨rfl, by decide⟩

/-- C4, amended: the scenario emits exactly 2 processors — an entity
processor (`extractNode: false`) with matcher
`matchesValue(metric.key, "foo.bar.*")` and a node processor
(`extractNode: true`) with the same matcher, one identity component
`{idComponent: "id", referencedFieldName: "id"}`, and
`nodeType = "CUSTOM_COM.DYNATRACE.FOO_BAR"` (not `"FOO_BAR"`). -/
theorem claim4_scenario_amended :
    createProcessorsFromTopology autoCallback [c4Type] none [] [] =
      .ok
        (([{ id := "CUSTOM_COM.DYNATRACE.FOO_BAR_entity_Metrics_0"
             type := "smartscapeNode"
             matcher := "matchesValue(metric.key, \"foo.bar.*\")"
             description := "Create entity for Foo Bar"
             smartscapeNode := some
               { nodeType := "CUSTOM_COM.DYNATRACE.FOO_BAR"
                 nodeIdFieldName := "node_id"
                 idComponents := [{ idComponent := "id", referencedFieldName := "id" }]
                 extractNode := false
                 nodeName :=
                   { type := "constant", constant := some "CUSTOM_COM.DYNATRACE.FOO_BAR",
                     field := none }
                 fieldsToExtract := none }
             smartscapeEdge := none },
           { id := "CUSTOM_COM.DYNATRACE.FOO_BAR_node_Metrics_1"
             type := "smartscapeNode"
             matcher := "matchesValue(metric.key, \"foo.bar.*\")"
             description := "Extract node for Foo Bar"
             smartscapeNode := some
               { nodeType := "CUSTOM_COM.DYNATRACE.FOO_BAR"
                 nodeIdFieldName := "node_id"
                 idComponents := [{ idComponent := "id", referencedFieldName := "id" }]
                 extractNode := true
                 nodeName :=
                   { type := "constant", constant := some "CUSTOM_COM.DYNATRACE.FOO_BAR",
                     field := none }
                 fieldsToExtract := none }
             smartscapeEdge := none }],
          [],
          [("custom:com.dynatrace.foo:bar", "CUSTOM_COM.DYNATRACE.FOO_BAR")]),
         [{ prompt := "Enter new name for type \"custom:com.dynatrace.foo:bar\""
            suggested := "CUSTOM_COM.DYNATRACE.FOO_BAR"
            answer := some "CUSTOM_COM.DYNATRACE.FOO_BAR" },
          { prompt :=
              "Enter matcher condition for entity extraction (extractNode: false) for \"Foo Bar\""
            suggested := "matchesValue(metric.key, \"foo.bar.*\")"
            answer := some "matchesValue(metric.key, \"foo.bar.*\")" },
          { prompt :=
              "Enter matcher condition for node extraction (extractNode: true) for \"Foo Bar\""
            suggested := "matchesValue(metric.key, \"foo.bar.*\")"
            answer := some "matchesValue(metric.key, \"foo.bar.*\")" }]) := by
  rfl

/-! ## C2 — unknown relationship kinds -/

/-- C2, counterexample: for `typeOfRelation = "FOLLOWS"` with endpoint names
not yet in the mapping, edge compilation makes two resolution-port calls (the
from/to name prompts) before raising the unknown-relationship-kind error, so
the error is not raised "before any Resolution Port call is made for that
relationship". -/
theorem claim2_unknown_relationship_counterexample :
    createProcessorsFromRelationships autoCallback [relFollows] [] [] =
      .error (.unknownRelationship "FOLLOWS",
        [{ prompt := "Enter new name for source type \"a\"", suggested := "A",
           answer := some "A" },
         { prompt := "Enter new name for target type \"b\"", suggested := "B",
           answer := some "B" }]) := by
  rfl

/-- C2, amended: for a relationship whose kind is outside the fixed
enumeration, the unknown-relationship-kind error is raised after the from/to
endpoint-name resolution (which prompts through the port for names not yet
mapped) but before the edge-kind confirmation prompt and before any
per-source matcher prompt — in particular, when both endpoint names are
already mapped, no port call at all is made for that relationship (the trace
is returned unchanged).  The error propagates: the whole run returns only the
error and produces zero processors. -/
theorem claim2_unknown_relationship_amended
    (cb : Callback) (rel : RelationshipDef) (rest : List RelationshipDef)
    (m : List (String × String)) (tr : List Call) (f t : String)
    (extName : String) (mets : Option (List MetricMetadata)) (rels2 : List RelationshipDef)
    (e : CompileError) (etr : List Call) :
    (jsTruthy (mapGet m rel.fromType) = some f →
     jsTruthy (mapGet m rel.toType) = some t →
     mapGet RELATIONSHIP_TYPE_MAPPING rel.typeOfRelation = none →
     createProcessorsFromRelationships cb (rel :: rest) m tr =
       .error (.unknownRelationship rel.typeOfRelation, tr))
  ∧ (createProcessorsFromRelationships cb rels2 [] [] = .error (e, etr) →
     convertTopologyToOpenPipeline cb
       { name := extName, topology := some { types := none, relationships := some rels2 },
         metrics := mets } = .error (e, etr)) := by
  constructor
  · intro hf ht hk
    simp [createProcessorsFromRelationships, relationshipsLoop, resolveTypeName, cBind,
      hf, ht, hk]
  · intro hrun
    simp [convertTopologyToOpenPipeline, cBind, hrun]

/-- C2, witness for the amended property: with both endpoint names mapped the
error comes with an unchanged (empty) trace, and the full run on a topology
holding only the bad relationship returns just the error. -/
theorem claim2_unknown_relationship_amended_witness :
    createProcessorsFromRelationships autoCallback [relFollows] [("a", "A"), ("b", "B")] [] =
      .error (.unknownRelationship "FOLLOWS", [])
  ∧ convertTopologyToOpenPipeline autoCallback
      { name := "x", topology := some { types := none, relationships := some [relFollows] },
        metrics := none } =
      .error (.unknownRelationship "FOLLOWS",
        [{ prompt := "Enter new name for source type \"a\"", suggested := "A",
           answer := some "A" },
         { prompt := "Enter new name for target type \"b\"", suggested := "B",
           answer := some "B" }]) := by
  constructor
  · exact (claim2_unknown_relationship_amended autoCallback relFollows [] [("a", "A"), ("b", "B")]
      [] "A" "B" "x" none [relFollows] (.unknownRelationship "FOLLOWS") []).1 rfl rfl rfl
  · exact (claim2_unknown_relationship_amended autoCallback relFollows [] [("a", "A"), ("b", "B")]
      [] "A" "B" "x" none [relFollows] (.unknownRelationship "FOLLOWS")
      [{ prompt := "Enter new name for source type \"a\"", suggested := "A",
         answer := some "A" },
       { prompt := "Enter new name for target type \"b\"", suggested := "B",
         answer := some "B" }]).2 rfl

/-! ## C3 — metric-condition translation -/

/-- C3: `convertConditionToMatcher` applies its rules in priority order:
empty/undefined (after trimming) gives `isNotNull(metric.key)`; a condition
containing `$prefix(X)` gives `matchesValue(metric.key, "X*")`; otherwise one
containing `$eq(X)` gives `metric.key == "X"`; otherwise one containing
`$exists()` gives `isNotNull(metric.key)`; otherwise the whole condition
string `C` is used as a wildcard pattern, `matchesValue(metric.key, "C")`.
Containment of `$prefix(X)` / `$eq(X)` is stated by decomposition (with no
`$` before the occurrence, and `X` non-empty and free of `)`', as the regex
capture requires); the negative "does not contain" hypforms are stated via
the embedded scanner. -/
theorem claim3_metric_condition_priority
    (c pfx eqv : String) (a1 b1 a2 b2 : List Char) :
    (convertConditionToMatcher none = "isNotNull(metric.key)")
  ∧ (jsTrim c.data = [] → convertConditionToMatcher (some c) = "isNotNull(metric.key)")
  ∧ (c.data = a1 ++ "$prefix(".data ++ pfx.data ++ ')' :: b1 → '$' ∉ a1 → pfx.data ≠ [] →
      ')' ∉ pfx.data →
      convertConditionToMatcher (some c) = "matchesValue(metric.key, \"" ++ pfx ++ "*\")")
  ∧ (scanCapture "$prefix(".data c.data = none →
      c.data = a2 ++ "$eq(".data ++ eqv.data ++ ')' :: b2 → '$' ∉ a2 → eqv.data ≠ [] →
      ')' ∉ eqv.data →
      convertConditionToMatcher (some c) = "metric.key == \"" ++ eqv ++ "\"")
  ∧ (scanCapture "$prefix(".data c.data = none → scanCapture "$eq(".data c.data = none →
      containsSub "$exists()".data c.data = true → jsTrim c.data ≠ [] →
      convertConditionToMatcher (some c) = "isNotNull(metric.key)")
  ∧ (scanCapture "$prefix(".data c.data = none → scanCapture "$eq(".data c.data = none →
      containsSub "$exists()".data c.data = false → jsTrim c.data ≠ [] →
      convertConditionToMatcher (some c) = "matchesValue(metric.key, \"" ++ c ++ "\")") := by
  refine ⟨rfl, ?_, ?_, ?_, ?_, ?_⟩
  · intro h
    simp [convertConditionToMatcher, h]
  · intro h ha hX hXr
    have hm : jsMatchCapture "$prefix(" c = some pfx :=
      jsMatchCapture_eq_some "prefix(".data "$prefix(" c pfx a1 b1 rfl h ha hX hXr
    have hd : '$' ∈ c.data := by
      rw [h]
      simp
    have ht : jsTrim c.data ≠ [] := jsTrim_ne_nil c.data '$' hd (by decide)
    simp [convertConditionToMatcher, ht, hm]
  · intro hp h ha hX hXr
    have hm : jsMatchCapture "$eq(" c = some eqv :=
      jsMatchCapture_eq_some "eq(".data "$eq(" c eqv a2 b2 rfl h ha hX hXr
    have hd : '$' ∈ c.data := by
      rw [h]
      simp
    have ht : jsTrim c.data ≠ [] := jsTrim_ne_nil c.data '$' hd (by decide)
    simp [convertConditionToMatcher, ht, jsMatchCapture, hp, hm]
    simp [jsMatchCapture] at hm
    simp [hm]
  · intro hp he hex ht
    simp [convertConditionToMatcher, ht, jsMatchCapture, hp, he, hex]
  · intro hp he hex ht
    simp [convertConditionToMatcher, ht, jsMatchCapture, hp, he, hex]

/-- C3, witness: one concrete condition per translation rule. -/
theorem claim3_metric_condition_priority_witness :
    convertConditionToMatcher (some "$prefix(foo.bar.)")
      = "matchesValue(metric.key, \"foo.bar.*\")"
  ∧ convertConditionToMatcher (some "$eq(abc)") = "metric.key == \"abc\""
  ∧ convertConditionToMatcher (some "   ") = "isNotNull(metric.key)"
  ∧ convertConditionToMatcher (some "x$exists()y") = "isNotNull(metric.key)"
  ∧ convertConditionToMatcher (some "raw*") = "matchesValue(metric.key, \"raw*\")" := by
  refine ⟨?_, ?_, ?_, ?_, ?_⟩
  · exact (claim3_metric_condition_priority "$prefix(foo.bar.)" "foo.bar." "" [] [] [] []).2.2.1
      rfl (by decide) (by decide) (by decide)
  · exact (claim3_metric_condition_priority "$eq(abc)" "" "abc" [] [] [] []).2.2.2.1
      rfl rfl (by decide) (by decide) (by decide)
  · exact (claim3_metric_condition_priority "   " "" "" [] [] [] []).2.1 rfl
  · exact (claim3_metric_condition_priority "x$exists()y" "" "" [] [] [] []).2.2.2.2.1
      rfl rfl rfl (by decide)
  · exact (claim3_metric_condition_priority "raw*" "" "" [] [] [] []).2.2.2.2.2
      rfl rfl rfl (by decide)

/-! ## C7 — dimension-requirements translation -/

/-- C7: `convertRequiredDimensionsToMatcher` returns `isNotNull(content)` for
a missing or empty requirement list; otherwise it emits one expression per
requirement joined flat with `" and "` in requirement order (exhibited by the
singleton base case and the cons recurrence).  The per-requirement expression
applies, against the dimension key, `$eq` first, then `$prefix`, then an
exact match for a pattern without those tokens, and `isNotNull(key)` when no
value pattern is supplied. -/
theorem claim7_dimension_requirements
    (dims : List DimensionDef) (d : DimensionDef) (vp pfx eqv : String)
    (a1 b1 a2 b2 : List Char) :
    (convertRequiredDimensionsToMatcher none = "isNotNull(content)")
  ∧ (convertRequiredDimensionsToMatcher (some []) = "isNotNull(content)")
  ∧ (convertRequiredDimensionsToMatcher (some [d]) = dimensionCondition d)
  ∧ (dims ≠ [] → convertRequiredDimensionsToMatcher (some (d :: dims)) =
      dimensionCondition d ++ " and " ++ convertRequiredDimensionsToMatcher (some dims))
  ∧ (d.valuePattern = none → dimensionCondition d = "isNotNull(" ++ d.key ++ ")")
  ∧ (d.valuePattern = some vp → vp.data = a1 ++ "$eq(".data ++ eqv.data ++ ')' :: b1 →
      '$' ∉ a1 → eqv.data ≠ [] → ')' ∉ eqv.data →
      dimensionCondition d = d.key ++ " == \"" ++ eqv ++ "\"")
  ∧ (d.valuePattern = some vp → scanCapture "$eq(".data vp.data = none →
      vp.data = a2 ++ "$prefix(".data ++ pfx.data ++ ')' :: b2 → '$' ∉ a2 → pfx.data ≠ [] →
      ')' ∉ pfx.data →
      dimensionCondition d = "matchesValue(" ++ d.key ++ ", \"" ++ pfx ++ "*\")")
  ∧ (d.valuePattern = some vp → vp ≠ "" → scanCapture "$eq(".data vp.data = none →
      scanCapture "$prefix(".data vp.data = none →
      dimensionCondition d = d.key ++ " == \"" ++ vp ++ "\"") := by
  refine ⟨rfl, rfl, rfl, ?_, ?_, ?_, ?_, ?_⟩
  · intro hne
    cases dims with
    | nil => exact absurd rfl hne
    | cons d2 rest =>
      simp [convertRequiredDimensionsToMatcher, jsJoin]
  · intro h
    simp [dimensionCondition, jsTruthy, h]
  · intro h hdec ha hX hXr
    have hm : jsMatchCapture "$eq(" vp = some eqv :=
      jsMatchCapture_eq_some "eq(".data "$eq(" vp eqv a1 b1 rfl hdec ha hX hXr
    have hvp : vp ≠ "" := by
      intro hv
      rw [hv] at hdec
      exact absurd (congrArg List.length hdec) (by simp; omega)
    simp [dimensionCondition, jsTruthy, h, hvp, hm]
  · intro h heq hdec ha hX hXr
    have hm : jsMatchCapture "$prefix(" vp = some pfx :=
      jsMatchCapture_eq_some "prefix(".data "$prefix(" vp pfx a2 b2 rfl hdec ha hX hXr
    have hvp : vp ≠ "" := by
      intro hv
      rw [hv] at hdec
      exact absurd (congrArg List.length hdec) (by simp; omega)
    simp [dimensionCondition, jsTruthy, h, hvp, jsMatchCapture, heq, hm]
    simp [jsMatchCapture] at hm
    simp [hm]
  · intro h hvp heq hpf
    simp [dimensionCondition, jsTruthy, h, hvp, jsMatchCapture, heq, hpf]

/-- C7, witness: a three-requirement list covering the `$eq`, missing-pattern
and literal-pattern cases, joined flat in order. -/
theorem claim7_dimension_requirements_witness :
    convertRequiredDimensionsToMatcher
        (some [{ key := "k1", valuePattern := some "$eq(v)" },
               { key := "k2", valuePattern := none },
               { key := "k3", valuePattern := some "lit" }])
      = "k1 == \"v\" and isNotNull(k2) and k3 == \"lit\"" := by
  have h1 := (claim7_dimension_requirements
    [{ key := "k2", valuePattern := none }, { key := "k3", valuePattern := some "lit" }]
    { key := "k1", valuePattern := some "$eq(v)" } "$eq(v)" "" "v" [] [] [] []).2.2.2.1
    (by decide)
  have h2 := (claim7_dimension_requirements
    [{ key := "k2", valuePattern := none }, { key := "k3", valuePattern := some "lit" }]
    { key := "k1", valuePattern := some "$eq(v)" } "$eq(v)" "" "v" [] [] [] []).2.2.2.2.2.1
    rfl rfl (by decide) (by decide) (by decide)
  rw [h1, h2]
  rfl

/-! ### Inversion lemmas for the compilation monad -/

theorem cBind_ok_inv {α β : Type} {r : CompileM α} {k : α → List Call → CompileM β}
    {v : β} {tr : List Call} (h : cBind r k = .ok (v, tr)) :
    ∃ w tw, r = .ok (w, tw) ∧ k w tw = .ok (v, tr) := by
  cases hr : r with
  | error e =>
    unfold cBind at h
    rw [hr] at h
    exact absurd h (by simp)
  | ok p =>
    obtain ⟨w, tw⟩ := p
    refine ⟨w, tw, rfl, ?_⟩
    unfold cBind at h
    rw [hr] at h
    exact h

theorem askInput_ok_inv {cb : Callback} {tr : List Call} {p s v : String} {tr' : List Call}
    (h : askInput cb tr p s = .ok (v, tr')) :
    tr' = tr ++ [{ prompt := p, suggested := s, answer := cb tr.length p s }]
    ∧ cb tr.length p s = some v ∧ v ≠ "" := by
  unfold askInput at h
  cases hc : cb tr.length p s with
  | none =>
    rw [hc] at h
    exact absurd h (by simp)
  | some s0 =>
    rw [hc] at h
    by_cases hs : s0 = ""
    · simp [hs] at h
    · simp only [hs, reduceIte] at h
      injection h with h1
      rw [Prod.mk.injEq] at h1
      obtain ⟨h2, h3⟩ := h1
      exact ⟨h3.symm, by rw [← h2], fun hv => hs (h2 ▸ hv)⟩

theorem askInput_error_inv {cb : Callback} {tr : List Call} {p s : String}
    {e : CompileError} {etr : List Call} (h : askInput cb tr p s = .error (e, etr)) :
    e = .cancelled
    ∧ etr = tr ++ [{ prompt := p, suggested := s, answer := cb tr.length p s }]
    ∧ answeredCall { prompt := p, suggested := s, answer := cb tr.length p s } = false := by
  unfold askInput at h
  cases hc : cb tr.length p s with
  | none =>
    rw [hc] at h
    obtain ⟨h1, h2⟩ := Prod.mk.injEq .. ▸ (Except.error.injEq .. ▸ h)
    exact ⟨h1.symm, h2.symm, by simp [answeredCall]⟩
  | some s0 =>
    rw [hc] at h
    by_cases hs : s0 = ""
    · subst hs
      simp only [reduceIte] at h
      injection h with h1
      rw [Prod.mk.injEq] at h1
      obtain ⟨h2, h3⟩ := h1
      exact ⟨h2.symm, h3.symm, by simp [answeredCall]⟩
    · simp [hs] at h

/-- An element of the pattern is an element of any list the pattern occurs
in. -/
theorem containsSub_mem (pat l : List Char) (c : Char) (hc : c ∈ pat)
    (h : containsSub pat l = true) : c ∈ l := by
  induction l with
  | nil =>
    rw [containsSub, decide_eq_true_eq] at h
    rw [h] at hc
    exact absurd hc (List.not_mem_nil c)
  | cons x xs ih =>
    rw [containsSub, Bool.or_eq_true] at h
    rcases h with h1 | h1
    · exact (List.isPrefixOf_iff_prefix.mp h1).subset hc
    · exact List.mem_cons_of_mem x (ih h1)

/-! ## C10 — node-matcher suggestion from the metrics catalogue -/

/-- C10: for a Metrics source whose condition contains `$exists()` (and
matches neither `$prefix(...)` nor `$eq(...)`), compiled against a non-empty
metrics catalogue while the resolved type has no node-extraction processor
yet, the two port calls made by `processMetricsSource` carry as suggested
values the entity matcher `isNotNull(metric.key)` and — for the node
extraction — the exact-key suggestion `matchesValue(metric.key, "K")` where
`K` is the key of the first metric in the catalogue. -/
theorem claim10_exists_metric_suggestion
    (cb : Callback) (type : TopologyType) (newName : String) (rule : RuleDef)
    (cond : String) (m0 : MetricMetadata) (rest : List MetricMetadata)
    (counter : Nat) (extractedTypes : List String) (tr : List Call)
    (out : List Processor × List String) (tr' : List Call)
    (hp : scanCapture "$prefix(".data cond.data = none)
    (he : scanCapture "$eq(".data cond.data = none)
    (hex : containsSub "$exists()".data cond.data = true)
    (hnotyet : extractedTypes.contains newName = false)
    (hok : processMetricsSource cb type newName
      { sourceType := "Metrics", condition := some cond } rule (some (m0 :: rest)) counter
      extractedTypes tr = .ok (out, tr')) :
    (tr'.drop tr.length).map (fun call => call.suggested) =
      ["isNotNull(metric.key)", "matchesValue(metric.key, \"" ++ m0.key ++ "\")"] := by
  have hdollar : '$' ∈ cond.data := containsSub_mem _ _ '$' (by decide) hex
  have hne : cond ≠ "" := by
    intro hv
    rw [hv] at hdollar
    exact absurd hdollar (by decide)
  have ht : jsTrim cond.data ≠ [] := jsTrim_ne_nil cond.data '$' hdollar (by decide)
  have hentity : convertConditionToMatcher (some cond) = "isNotNull(metric.key)" := by
    simp [convertConditionToMatcher, ht, jsMatchCapture, hp, he, hex]
  have hfind : findMatchingMetric (some cond) (some (m0 :: rest)) = some m0.key := by
    simp [findMatchingMetric, jsTruthy, hne, jsMatchCapture, hp, he, hex]
  unfold processMetricsSource at hok
  obtain ⟨v1, tr1, hask1, hk1⟩ := cBind_ok_inv hok
  obtain ⟨htr1, hcb1, hv1⟩ := askInput_ok_inv hask1
  rw [hnotyet] at hk1
  simp only [Bool.false_eq_true, if_false, hfind] at hk1
  obtain ⟨v2, tr2, hask2, hk2⟩ := cBind_ok_inv hk1
  obtain ⟨htr2, hcb2, hv2⟩ := askInput_ok_inv hask2
  have htr' : tr' = tr2 := by
    have := Except.ok.injEq .. ▸ hk2
    exact (Prod.mk.injEq .. ▸ this).2.symm
  rw [htr', htr2, htr1]
  simp [hentity]

/-- C10, witness: condition `$exists()`, catalogue `[cpu.usage, mem.used]`,
automatic port. -/
theorem claim10_exists_metric_suggestion_witness :
    ((okD (processMetricsSource autoCallback c4Type "T"
        { sourceType := "Metrics", condition := some "$exists()" }
        { idPattern := none, instanceNamePattern := none, requiredDimensions := none,
          attributes := none,
          sources := [{ sourceType := "Metrics", condition := some "$exists()" }] }
        (some [{ key := "cpu.usage" }, { key := "mem.used" }]) 0 [] []) (([], []), [])).2.drop
      0).map (fun call => call.suggested) =
      ["isNotNull(metric.key)", "matchesValue(metric.key, \"cpu.usage\")"] := by
  exact claim10_exists_metric_suggestion autoCallback c4Type "T"
    { idPattern := none, instanceNamePattern := none, requiredDimensions := none,
      attributes := none,
      sources := [{ sourceType := "Metrics", condition := some "$exists()" }] }
    "$exists()" { key := "cpu.usage" } [{ key := "mem.used" }] 0 [] [] _ _
    rfl rfl rfl rfl rfl

/-! ### Shapes of emitted node processors -/

theorem isNodeTrue_createNode (entityTypeName : String) (type : TopologyType) (newName : String)
    (source : SourceDef) (rule : RuleDef) (b : Bool) (matcher : String) (counter : Nat) :
    isNodeTrue entityTypeName
        (createSmartscapeNodeProcessor type newName source rule b matcher counter)
      = (b && (newName == entityTypeName)) := rfl

theorem hasNodeType_createNode (entityTypeName : String) (type : TopologyType) (newName : String)
    (source : SourceDef) (rule : RuleDef) (b : Bool) (matcher : String) (counter : Nat) :
    hasNodeType entityTypeName
        (createSmartscapeNodeProcessor type newName source rule b matcher counter)
      = (newName == entityTypeName) := rfl

theorem idComponentsOk_createNode (type : TopologyType) (newName : String)
    (source : SourceDef) (rule : RuleDef) (b : Bool) (matcher : String) (counter : Nat) :
    idComponentsOk (createSmartscapeNodeProcessor type newName source rule b matcher counter)
      = true := by
  unfold idComponentsOk createSmartscapeNodeProcessor
  simp only [decide_eq_true_eq]
  split <;> split <;> simp_all

/-- `processMetricsSource` emits one entity processor when the resolved name
already has node extraction, and an entity processor plus a node-extraction
processor (marking the name) otherwise. -/
theorem processMetricsSource_shape {cb : Callback} {type : TopologyType} {newName : String}
    {source : SourceDef} {rule : RuleDef} {metrics : Option (List MetricMetadata)}
    {counter : Nat} {extSet : List String} {tr : List Call}
    {out : List Processor × List String} {tr' : List Call}
    (h : processMetricsSource cb type newName source rule metrics counter extSet tr
      = .ok (out, tr')) :
    (extSet.contains newName = true ∧ out.2 = extSet ∧
      ∃ m1, out.1 = [createSmartscapeNodeProcessor type newName source rule false m1 counter])
  ∨ (extSet.contains newName = false ∧ out.2 = newName :: extSet ∧
      ∃ m1 m2,
        out.1 = [createSmartscapeNodeProcessor type newName source rule false m1 counter,
          createSmartscapeNodeProcessor type newName source rule true m2 (counter + 1)]) := by
  unfold processMetricsSource at h
  obtain ⟨v1, tr1, hask1, hk1⟩ := cBind_ok_inv h
  by_cases hc : extSet.contains newName = true
  · left
    simp only [hc, if_true] at hk1
    injection hk1 with hk1
    rw [Prod.mk.injEq] at hk1
    rw [← hk1.1]
    exact ⟨hc, rfl, v1, rfl⟩
  · right
    rw [Bool.not_eq_true] at hc
    simp only [hc, Bool.false_eq_true, if_false] at hk1
    obtain ⟨v2, tr2, hask2, hk2⟩ := cBind_ok_inv hk1
    injection hk2 with hk2
    rw [Prod.mk.injEq] at hk2
    rw [← hk2.1]
    exact ⟨hc, rfl, v1, v2, rfl⟩

/-- Same shape fact for `processLogsSource`. -/
theorem processLogsSource_shape {cb : Callback} {type : TopologyType} {newName : String}
    {source : SourceDef} {rule : RuleDef}
    {counter : Nat} {extSet : List String} {tr : List Call}
    {out : List Processor × List String} {tr' : List Call}
    (h : processLogsSource cb type newName source rule counter extSet tr = .ok (out, tr')) :
    (extSet.contains newName = true ∧ out.2 = extSet ∧
      ∃ m1, out.1 = [createSmartscapeNodeProcessor type newName source rule false m1 counter])
  ∨ (extSet.contains newName = false ∧ out.2 = newName :: extSet ∧
      ∃ m1 m2,
        out.1 = [createSmartscapeNodeProcessor type newName source rule false m1 counter,
          createSmartscapeNodeProcessor type newName source rule true m2 (counter + 1)]) := by
  unfold processLogsSource at h
  obtain ⟨v1, tr1, hask1, hk1⟩ := cBind_ok_inv h
  by_cases hc : extSet.contains newName = true
  · left
    simp only [hc, if_true] at hk1
    injection hk1 with hk1
    rw [Prod.mk.injEq] at hk1
    rw [← hk1.1]
    exact ⟨hc, rfl, v1, rfl⟩
  · right
    rw [Bool.not_eq_true] at hc
    simp only [hc, Bool.false_eq_true, if_false] at hk1
    obtain ⟨v2, tr2, hask2, hk2⟩ := cBind_ok_inv hk1
    injection hk2 with hk2
    rw [Prod.mk.injEq] at hk2
    rw [← hk2.1]
    exact ⟨hc, rfl, v1, v2, rfl⟩

/-! ### Preservation of the node-extraction invariant -/

theorem nodePair_entity (entityTypeName newName : String) (ext : List String)
    (C : List Processor) (e : Processor)
    (he1 : isNodeTrue entityTypeName e = false)
    (he2 : hasNodeType entityTypeName e = (newName == entityTypeName))
    (hmem : ext.contains newName = true) (h : NodePair entityTypeName C ext) :
    NodePair entityTypeName (C ++ [e]) ext := by
  obtain ⟨h1, h2⟩ := h
  have hmem2 : newName ∈ ext := by simpa using hmem
  constructor
  · simp only [nodeTrueCount] at h1 ⊢
    rw [List.countP_append, h1]
    simp [List.countP_cons, he1]
  · rw [List.any_append]
    by_cases hq : newName = entityTypeName
    · subst hq
      simp [he2, hmem2]
    · have hqb : (newName == entityTypeName) = false := beq_eq_false_iff_ne.mpr hq
      simp [he2, hqb, h2]

theorem nodePair_entity_node (entityTypeName newName : String) (ext : List String)
    (C : List Processor) (e n : Processor)
    (he1 : isNodeTrue entityTypeName e = false)
    (he2 : hasNodeType entityTypeName e = (newName == entityTypeName))
    (hn1 : isNodeTrue entityTypeName n = (newName == entityTypeName))
    (hn2 : hasNodeType entityTypeName n = (newName == entityTypeName))
    (hmem : ext.contains newName = false) (h : NodePair entityTypeName C ext) :
    NodePair entityTypeName (C ++ [e, n]) (newName :: ext) := by
  obtain ⟨h1, h2⟩ := h
  have hmem2 : newName ∉ ext := by simpa using hmem
  by_cases hq : newName = entityTypeName
  · subst hq
    have hC : C.countP (isNodeTrue newName) = 0 := by
      simp only [nodeTrueCount] at h1
      rw [h1]
      simp [hmem2]
    constructor
    · simp only [nodeTrueCount]
      rw [List.countP_append, hC]
      simp [List.countP_cons, he1, hn1]
    · rw [List.any_append]
      simp [hn2]
  · have hqb : (newName == entityTypeName) = false := beq_eq_false_iff_ne.mpr hq
    have hne : ¬(entityTypeName = newName) := fun hh => hq hh.symm
    constructor
    · simp only [nodeTrueCount] at h1 ⊢
      rw [List.countP_append, h1]
      simp [List.countP_cons, he1, hn1, hqb, List.mem_cons, hne]
    · rw [List.any_append]
      simp [he2, hn2, hqb, h2, List.mem_cons, hne]

/-- The invariant is insensitive to where in the combined list the new
processors are appended. -/
theorem nodePair_insert_mid (entityTypeName : String) (A P B : List Processor)
    (ext : List String) (h : NodePair entityTypeName ((A ++ B) ++ P) ext) :
    NodePair entityTypeName ((A ++ P) ++ B) ext := by
  obtain ⟨h1, h2⟩ := h
  constructor
  · rw [← h1]
    simp only [nodeTrueCount, List.countP_append]
    omega
  · rw [← h2]
    simp only [List.any_append]
    rw [Bool.or_right_comm]

theorem processMetricsSource_invariant {cb : Callback} {type : TopologyType} {newName : String}
    {source : SourceDef} {rule : RuleDef} {metrics : Option (List MetricMetadata)}
    {counter : Nat} {extSet : List String} {tr : List Call}
    {out : List Processor × List String} {tr' : List Call}
    (h : processMetricsSource cb type newName source rule metrics counter extSet tr
      = .ok (out, tr'))
    (C : List Processor) (hC : ∀ entityTypeName, NodePair entityTypeName C extSet)
    (hCid : ∀ p ∈ C, idComponentsOk p = true) :
    (∀ entityTypeName, NodePair entityTypeName (C ++ out.1) out.2)
    ∧ (∀ p ∈ C ++ out.1, idComponentsOk p = true) := by
  rcases processMetricsSource_shape h with ⟨hc, hext, m1, hprocs⟩ | ⟨hc, hext, m1, m2, hprocs⟩
  · rw [hprocs, hext]
    refine ⟨fun N => nodePair_entity N newName extSet C _ (by simp [isNodeTrue_createNode])
      (hasNodeType_createNode ..) hc (hC N), ?_⟩
    intro p hp
    rcases List.mem_append.mp hp with hp | hp
    · exact hCid p hp
    · rw [List.mem_singleton.mp hp]
      exact idComponentsOk_createNode ..
  · rw [hprocs, hext]
    refine ⟨fun N => nodePair_entity_node N newName extSet C _ _
      (by simp [isNodeTrue_createNode]) (hasNodeType_createNode ..)
      (by simp [isNodeTrue_createNode]) (hasNodeType_createNode ..) hc (hC N), ?_⟩
    intro p hp
    rcases List.mem_append.mp hp with hp | hp
    · exact hCid p hp
    · rcases List.mem_cons.mp hp with hp | hp
      · rw [hp]
        exact idComponentsOk_createNode ..
      · rw [List.mem_singleton.mp hp]
        exact idComponentsOk_createNode ..

theorem processLogsSource_invariant {cb : Callback} {type : TopologyType} {newName : String}
    {source : SourceDef} {rule : RuleDef}
    {counter : Nat} {extSet : List String} {tr : List Call}
    {out : List Processor × List String} {tr' : List Call}
    (h : processLogsSource cb type newName source rule counter extSet tr = .ok (out, tr'))
    (C : List Processor) (hC : ∀ entityTypeName, NodePair entityTypeName C extSet)
    (hCid : ∀ p ∈ C, idComponentsOk p = true) :
    (∀ entityTypeName, NodePair entityTypeName (C ++ out.1) out.2)
    ∧ (∀ p ∈ C ++ out.1, idComponentsOk p = true) := by
  rcases processLogsSource_shape h with ⟨hc, hext, m1, hprocs⟩ | ⟨hc, hext, m1, m2, hprocs⟩
  · rw [hprocs, hext]
    refine ⟨fun N => nodePair_entity N newName extSet C _ (by simp [isNodeTrue_createNode])
      (hasNodeType_createNode ..) hc (hC N), ?_⟩
    intro p hp
    rcases List.mem_append.mp hp with hp | hp
    · exact hCid p hp
    · rw [List.mem_singleton.mp hp]
      exact idComponentsOk_createNode ..
  · rw [hprocs, hext]
    refine ⟨fun N => nodePair_entity_node N newName extSet C _ _
      (by simp [isNodeTrue_createNode]) (hasNodeType_createNode ..)
      (by simp [isNodeTrue_createNode]) (hasNodeType_createNode ..) hc (hC N), ?_⟩
    intro p hp
    rcases List.mem_append.mp hp with hp | hp
    · exact hCid p hp
    · rcases List.mem_cons.mp hp with hp | hp
      · rw [hp]
        exact idComponentsOk_createNode ..
      · rw [List.mem_singleton.mp hp]
        exact idComponentsOk_createNode ..

theorem sourcesLoop_invariant {cb : Callback} {type : TopologyType} {newName : String}
    {rule : RuleDef} {metrics : Option (List MetricMetadata)}
    (sources : List SourceDef) (acc : TopoAcc) (tr : List Call)
    {acc' : TopoAcc} {tr' : List Call}
    (h : sourcesLoop cb type newName rule metrics sources acc tr = .ok (acc', tr'))
    (hInv : TopoInvariant acc) : TopoInvariant acc' := by
  induction sources generalizing acc tr with
  | nil =>
    unfold sourcesLoop at h
    injection h with h
    rw [Prod.mk.injEq] at h
    exact h.1 ▸ hInv
  | cons source rest ih =>
    unfold sourcesLoop at h
    by_cases hm : source.sourceType = "Metrics"
    · rw [if_pos hm] at h
      obtain ⟨out, tr1, hstep, hk⟩ := cBind_ok_inv h
      refine ih _ _ hk ?_
      obtain ⟨hpair, hid⟩ :=
        processMetricsSource_invariant hstep (acc.metricsProcessors ++ acc.logsProcessors)
          hInv.1 hInv.2
      constructor
      · intro N
        exact nodePair_insert_mid N acc.metricsProcessors out.1 acc.logsProcessors out.2
          (hpair N)
      · intro p hp
        refine hid p ?_
        simp only [List.mem_append] at hp ⊢
        tauto
    · rw [if_neg hm] at h
      by_cases hl : source.sourceType = "Logs"
      · rw [if_pos hl] at h
        obtain ⟨out, tr1, hstep, hk⟩ := cBind_ok_inv h
        refine ih _ _ hk ?_
        obtain ⟨hpair, hid⟩ :=
          processLogsSource_invariant hstep (acc.metricsProcessors ++ acc.logsProcessors)
            hInv.1 hInv.2
        constructor
        · intro N
          have := hpair N
          rw [List.append_assoc] at this
          exact this
        · intro p hp
          refine hid p ?_
          simp only [List.mem_append] at hp ⊢
          tauto
      · rw [if_neg hl] at h
        exact ih _ _ h hInv

theorem rulesLoop_invariant {cb : Callback} {type : TopologyType} {newName : String}
    {metrics : Option (List MetricMetadata)}
    (rules : List RuleDef) (acc : TopoAcc) (tr : List Call)
    {acc' : TopoAcc} {tr' : List Call}
    (h : rulesLoop cb type newName metrics rules acc tr = .ok (acc', tr'))
    (hInv : TopoInvariant acc) : TopoInvariant acc' := by
  induction rules generalizing acc tr with
  | nil =>
    unfold rulesLoop at h
    injection h with h
    rw [Prod.mk.injEq] at h
    exact h.1 ▸ hInv
  | cons rule rest ih =>
    unfold rulesLoop at h
    obtain ⟨acc1, tr1, hstep, hk⟩ := cBind_ok_inv h
    exact ih _ _ hk (sourcesLoop_invariant rule.sources acc tr hstep hInv)

theorem typesLoop_invariant {cb : Callback} {metrics : Option (List MetricMetadata)}
    (types : List TopologyType) (mapping : List (String × String)) (acc : TopoAcc)
    (tr : List Call) {out : List (String × String) × TopoAcc} {tr' : List Call}
    (h : typesLoop cb metrics types mapping acc tr = .ok (out, tr'))
    (hInv : TopoInvariant acc) : TopoInvariant out.2 := by
  induction types generalizing mapping acc tr with
  | nil =>
    unfold typesLoop at h
    injection h with h
    rw [Prod.mk.injEq] at h
    exact h.1 ▸ hInv
  | cons type rest ih =>
    unfold typesLoop at h
    obtain ⟨v, tr1, hask, hk⟩ := cBind_ok_inv h
    obtain ⟨acc1, tr2, hrules, hk2⟩ := cBind_ok_inv hk
    exact ih _ _ _ hk2 (rulesLoop_invariant type.rules acc tr1 hrules hInv)

theorem topoInvariant_init : TopoInvariant ⟨[], [], 0, 0, []⟩ := by
  constructor
  · intro entityTypeName
    constructor <;> simp [nodeTrueCount]
  · intro p hp
    simp at hp

/-! ## C1 — at most one node-extraction processor per resolved name -/

/-- C1: in any successful node-compilation run, for every resolved
entity-type name, the number of emitted processors with `extractNode: true`
carrying that name is exactly 1 if any emitted processor (equivalently, any
Metrics/Logs rule/source of a type resolved to that name, each of which
always emits at least its entity processor) references the name, and 0
otherwise — regardless of how many rules or sources reference it. -/
theorem claim1_node_extraction_unique
    (cb : Callback) (types : List TopologyType) (metrics : Option (List MetricMetadata))
    (mapping : List (String × String)) (tr : List Call)
    (mProcs lProcs : List Processor) (mapping2 : List (String × String)) (tr2 : List Call)
    (entityTypeName : String)
    (h : createProcessorsFromTopology cb types metrics mapping tr
      = .ok ((mProcs, lProcs, mapping2), tr2)) :
    nodeTrueCount entityTypeName (mProcs ++ lProcs)
      = (if (mProcs ++ lProcs).any (hasNodeType entityTypeName) then 1 else 0) := by
  unfold createProcessorsFromTopology at h
  obtain ⟨out, tr1, hloop, hret⟩ := cBind_ok_inv h
  injection hret with hret
  rw [Prod.mk.injEq] at hret
  obtain ⟨hret1, _⟩ := hret
  rw [Prod.mk.injEq] at hret1
  obtain ⟨hm, hrest⟩ := hret1
  rw [Prod.mk.injEq] at hrest
  obtain ⟨hl, _⟩ := hrest
  have hInv := typesLoop_invariant types mapping ⟨[], [], 0, 0, []⟩ tr hloop topoInvariant_init
  obtain ⟨hcount, hany⟩ := hInv.1 entityTypeName
  rw [hm, hl] at hcount hany
  rw [hcount, hany]

/-- C1, witness: two types, three Metrics/Logs rule-source combinations for
`T1` across the run, exactly one node-extraction processor for `T1`. -/
theorem claim1_node_extraction_unique_witness :
    nodeTrueCount "T1" (exRun1.1.1 ++ exRun1.1.2.1) = 1 := by
  have h := claim1_node_extraction_unique autoCallback [exType1, exType2] none [] []
    exRun1.1.1 exRun1.1.2.1 exRun1.1.2.2 exRun1.2 "T1" rfl
  rw [h]
  rfl

/-! ## C6 — identity components are never empty -/

/-- C6: every emitted node-variant processor (both `extractNode: true` and
`extractNode: false`), under any rule shape, carries a non-empty
identity-component list. -/
theorem claim6_id_components_nonempty
    (cb : Callback) (types : List TopologyType) (metrics : Option (List MetricMetadata))
    (mapping : List (String × String)) (tr : List Call)
    (mProcs lProcs : List Processor) (mapping2 : List (String × String)) (tr2 : List Call)
    (h : createProcessorsFromTopology cb types metrics mapping tr
      = .ok ((mProcs, lProcs, mapping2), tr2)) :
    (mProcs ++ lProcs).all idComponentsOk = true := by
  unfold createProcessorsFromTopology at h
  obtain ⟨out, tr1, hloop, hret⟩ := cBind_ok_inv h
  injection hret with hret
  rw [Prod.mk.injEq] at hret
  obtain ⟨hret1, _⟩ := hret
  rw [Prod.mk.injEq] at hret1
  obtain ⟨hm, hrest⟩ := hret1
  rw [Prod.mk.injEq] at hrest
  obtain ⟨hl, _⟩ := hrest
  have hInv := typesLoop_invariant types mapping ⟨[], [], 0, 0, []⟩ tr hloop topoInvariant_init
  have hid := hInv.2
  rw [hm, hl] at hid
  exact List.all_eq_true.mpr hid

/-- C6, witness: the example run, with id patterns absent (so identity
components fall back to required dimensions or the synthesized
`<type>.id`). -/
theorem claim6_id_components_nonempty_witness :
    (exRun1.1.1 ++ exRun1.1.2.1).all idComponentsOk = true :=
  claim6_id_components_nonempty autoCallback [exType1, exType2] none [] []
    exRun1.1.1 exRun1.1.2.1 exRun1.1.2.2 exRun1.2 rfl

/-! ### Lemmas about the name mapping -/

theorem mapGet_eq_none_iff (m : List (String × String)) (k : String) :
    mapGet m k = none ↔ k ∉ m.map Prod.fst := by
  induction m with
  | nil => simp [mapGet]
  | cons kv rest ih =>
    obtain ⟨a, b⟩ := kv
    by_cases hk : a = k
    · subst hk
      simp [mapGet]
    · simp only [mapGet, if_neg hk, List.map_cons, List.mem_cons, ih]
      constructor
      · intro h
        rintro (h1 | h1)
        · exact hk h1.symm
        · exact h h1
      · intro h h1
        exact h (Or.inr h1)

theorem mapGet_mem {m : List (String × String)} {k v : String}
    (h : mapGet m k = some v) : (k, v) ∈ m := by
  induction m with
  | nil => simp [mapGet] at h
  | cons kv rest ih =>
    obtain ⟨a, b⟩ := kv
    by_cases hk : a = k
    · subst hk
      simp only [mapGet, reduceIte, Option.some.injEq] at h
      rw [← h]
      exact List.mem_cons_self ..
    · rw [mapGet, if_neg hk] at h
      exact List.mem_cons_of_mem _ (ih h)

theorem typesLoop_mapping {cb : Callback} {metrics : Option (List MetricMetadata)}
    (types : List TopologyType) (mapping : List (String × String)) (acc : TopoAcc)
    (tr : List Call) {out : List (String × String) × TopoAcc} {tr' : List Call}
    (h : typesLoop cb metrics types mapping acc tr = .ok (out, tr'))
    (hm : MappingOk mapping)
    (hnodup : (types.map TopologyType.name).Nodup)
    (hfresh : ∀ t ∈ types, mapGet mapping t.name = none) :
    MappingOk out.1 := by
  induction types generalizing mapping acc tr with
  | nil =>
    unfold typesLoop at h
    injection h with h
    rw [Prod.mk.injEq] at h
    exact h.1 ▸ hm
  | cons type rest ih =>
    unfold typesLoop at h
    obtain ⟨v, tr1, hask, hk⟩ := cBind_ok_inv h
    obtain ⟨_, _, hv⟩ := askInput_ok_inv hask
    obtain ⟨acc1, tr2, hrules, hk2⟩ := cBind_ok_inv hk
    rw [List.map_cons, List.nodup_cons] at hnodup
    refine ih _ _ _ hk2 ⟨?_, ?_⟩ hnodup.2 ?_
    · rw [List.map_cons, List.nodup_cons]
      exact ⟨(mapGet_eq_none_iff mapping type.name).mp (hfresh type (List.mem_cons_self ..)),
        hm.1⟩
    · intro kv hkv
      rcases List.mem_cons.mp hkv with hkv | hkv
      · rw [hkv]
        exact hv
      · exact hm.2 kv hkv
    · intro t ht
      have hne : t.name ≠ type.name := by
        intro he
        exact hnodup.1 (he ▸ List.mem_map_of_mem TopologyType.name ht)
      show (if type.name = t.name then some v else mapGet mapping t.name) = none
      rw [if_neg (fun hh : type.name = t.name => hne hh.symm)]
      exact hfresh t (List.mem_cons_of_mem _ ht)

theorem resolveTypeName_mapped {cb : Callback} {m : List (String × String)}
    {typeName prompt : String} {tr : List Call} {f : String}
    (h : jsTruthy (mapGet m typeName) = some f) :
    resolveTypeName cb m typeName prompt tr = .ok ((f, m), tr) := by
  unfold resolveTypeName
  rw [h]

theorem resolveTypeName_mapping {cb : Callback} {m : List (String × String)}
    {typeName prompt : String} {tr : List Call}
    {out : String × List (String × String)} {tr' : List Call}
    (h : resolveTypeName cb m typeName prompt tr = .ok (out, tr'))
    (hm : MappingOk m) : MappingOk out.2 := by
  unfold resolveTypeName at h
  cases hj : jsTruthy (mapGet m typeName) with
  | some v =>
    rw [hj] at h
    injection h with h
    rw [Prod.mk.injEq] at h
    rw [← h.1]
    exact hm
  | none =>
    rw [hj] at h
    obtain ⟨v, tr1, hask, hk⟩ := cBind_ok_inv h
    obtain ⟨_, _, hv⟩ := askInput_ok_inv hask
    injection hk with hk
    rw [Prod.mk.injEq] at hk
    rw [← hk.1]
    have hfresh : typeName ∉ m.map Prod.fst := by
      cases hg : mapGet m typeName with
      | none => exact (mapGet_eq_none_iff m typeName).mp hg
      | some s =>
        rw [hg] at hj
        by_cases hs : s = ""
        · subst hs
          exact absurd (hm.2 (typeName, "") (mapGet_mem hg)) (by simp)
        · rw [show jsTruthy (some s) = some s from by simp [jsTruthy, hs]] at hj
          exact absurd hj (by simp)
    constructor
    · rw [List.map_cons, List.nodup_cons]
      exact ⟨hfresh, hm.1⟩
    · intro kv hkv
      rcases List.mem_cons.mp hkv with hkv | hkv
      · rw [hkv]
        exact hv
      · exact hm.2 kv hkv

theorem relationshipsLoop_mapping {cb : Callback}
    (rels : List RelationshipDef) (mapping : List (String × String)) (acc : EdgeAcc)
    (tr : List Call) {out : List (String × String) × EdgeAcc} {tr' : List Call}
    (h : relationshipsLoop cb rels mapping acc tr = .ok (out, tr'))
    (hm : MappingOk mapping) : MappingOk out.1 := by
  induction rels generalizing mapping acc tr with
  | nil =>
    unfold relationshipsLoop at h
    injection h with h
    rw [Prod.mk.injEq] at h
    exact h.1 ▸ hm
  | cons rel rest ih =>
    unfold relationshipsLoop at h
    obtain ⟨fromOut, tr1, hfrom, hk⟩ := cBind_ok_inv h
    obtain ⟨toOut, tr2, hto, hk2⟩ := cBind_ok_inv hk
    have hm1 := resolveTypeName_mapping hfrom hm
    have hm2 := resolveTypeName_mapping hto hm1
    cases hrt : mapGet RELATIONSHIP_TYPE_MAPPING rel.typeOfRelation with
    | none =>
      rw [hrt] at hk2
      exact absurd hk2 (by simp)
    | some sk =>
      rw [hrt] at hk2
      obtain ⟨edgeType, tr3, hask, hk3⟩ := cBind_ok_inv hk2
      obtain ⟨acc1, tr4, hsrc, hk4⟩ := cBind_ok_inv hk3
      exact ih _ _ _ hk4 hm2

theorem relationshipsLoop_unchanged {cb : Callback}
    (rels : List RelationshipDef) (mapping : List (String × String)) (acc : EdgeAcc)
    (tr : List Call) {out : List (String × String) × EdgeAcc} {tr' : List Call}
    (h : relationshipsLoop cb rels mapping acc tr = .ok (out, tr'))
    (hall : ∀ rel ∈ rels, (jsTruthy (mapGet mapping rel.fromType)).isSome
      ∧ (jsTruthy (mapGet mapping rel.toType)).isSome) :
    out.1 = mapping := by
  induction rels generalizing acc tr with
  | nil =>
    unfold relationshipsLoop at h
    injection h with h
    rw [Prod.mk.injEq] at h
    rw [← h.1]
  | cons rel rest ih =>
    obtain ⟨hf, ht⟩ := hall rel (List.mem_cons_self ..)
    obtain ⟨f, hf⟩ := Option.isSome_iff_exists.mp hf
    obtain ⟨t, ht⟩ := Option.isSome_iff_exists.mp ht
    unfold relationshipsLoop at h
    rw [resolveTypeName_mapped hf] at h
    simp only [cBind] at h
    rw [resolveTypeName_mapped ht] at h
    cases hrt : mapGet RELATIONSHIP_TYPE_MAPPING rel.typeOfRelation with
    | none =>
      rw [hrt] at h
      exact absurd h (by simp)
    | some sk =>
      rw [hrt] at h
      obtain ⟨edgeType, tr3, hask, hk3⟩ := cBind_ok_inv h
      obtain ⟨acc1, tr4, hsrc, hk4⟩ := cBind_ok_inv hk3
      exact ih _ _ hk4 (fun r hr => hall r (List.mem_cons_of_mem _ hr))

/-! ## C9 — name-mapping immutability -/

/-- C9, counterexample: two topology types sharing the name `a`, with the
port answering `X` for the first and `Y` for the second.  The run's prefix
(first type only) binds `a ↦ X`; the full run ends with a later binding
`a ↦ Y` shadowing it, and lookups now yield `Y` — so a NameMapping entry,
once set, was overwritten by a later step of node compilation. -/
theorem claim9_mapping_counterexample :
    createProcessorsFromTopology (indexedCallback ["X", "Y"]) [typeA, typeA] none [] []
      = .ok (([], [], [("a", "Y"), ("a", "X")]),
        [{ prompt := "Enter new name for type \"a\"", suggested := "A", answer := some "X" },
         { prompt := "Enter new name for type \"a\"", suggested := "A", answer := some "Y" }])
  ∧ createProcessorsFromTopology (indexedCallback ["X", "Y"]) [typeA] none [] []
      = .ok (([], [], [("a", "X")]),
        [{ prompt := "Enter new name for type \"a\"", suggested := "A", answer := some "X" }])
  ∧ mapGet [("a", "Y"), ("a", "X")] "a" = some "Y" := by
  exact ⟨rfl, rfl, rfl⟩

/-- C9, amended: within one run the mapping is only ever extended, except
that node compilation binds each topology type name as it is encountered and
so rebinds (overwrites) on duplicate type names.  When all topology type
names are distinct, no binding is ever overwritten: the mapping produced by
node compilation followed by edge compilation has pairwise-distinct keys.
Edge compilation never overwrites: a relationship list whose endpoint names
are all already mapped (to non-empty names) leaves the mapping unchanged, the
mapped names being resolved by pure lookup. -/
theorem claim9_mapping_amended
    (cb cb2 cb3 : Callback) (types : List TopologyType)
    (metrics : Option (List MetricMetadata)) (tr0 tr1 tr4 : List Call)
    (nodeOut : List Processor × List Processor × List (String × String)) (ntr : List Call)
    (rels rels2 : List RelationshipDef)
    (edgeOut edgeOut2 : List Processor × List Processor × List (String × String))
    (etr etr2 : List Call) (m : List (String × String)) :
    ((types.map TopologyType.name).Nodup →
     createProcessorsFromTopology cb types metrics [] tr0 = .ok (nodeOut, ntr) →
     createProcessorsFromRelationships cb2 rels nodeOut.2.2 tr1 = .ok (edgeOut, etr) →
     (edgeOut.2.2.map Prod.fst).Nodup)
  ∧ ((∀ rel ∈ rels2, (jsTruthy (mapGet m rel.fromType)).isSome
        ∧ (jsTruthy (mapGet m rel.toType)).isSome) →
     createProcessorsFromRelationships cb3 rels2 m tr4 = .ok (edgeOut2, etr2) →
     edgeOut2.2.2 = m) := by
  constructor
  · intro hnodup hnode hedge
    unfold createProcessorsFromTopology at hnode
    obtain ⟨out, ntr1, hloop, hret⟩ := cBind_ok_inv hnode
    injection hret with hret
    rw [Prod.mk.injEq] at hret
    obtain ⟨hret1, _⟩ := hret
    have hmap : out.1 = nodeOut.2.2 := by
      rw [← hret1]
    have hm1 : MappingOk nodeOut.2.2 := by
      rw [← hmap]
      exact typesLoop_mapping types [] ⟨[], [], 0, 0, []⟩ tr0 hloop
        ⟨by simp, by simp⟩ hnodup (fun t _ => rfl)
    unfold createProcessorsFromRelationships at hedge
    obtain ⟨eout, etr1, heloop, heret⟩ := cBind_ok_inv hedge
    injection heret with heret
    rw [Prod.mk.injEq] at heret
    obtain ⟨heret1, _⟩ := heret
    have hemap : eout.1 = edgeOut.2.2 := by
      rw [← heret1]
    have hm2 : MappingOk edgeOut.2.2 := by
      rw [← hemap]
      exact relationshipsLoop_mapping rels nodeOut.2.2 ⟨[], [], 0, 0⟩ tr1 heloop hm1
    exact hm2.1
  · intro hall hedge
    unfold createProcessorsFromRelationships at hedge
    obtain ⟨eout, etr1, heloop, heret⟩ := cBind_ok_inv hedge
    injection heret with heret
    rw [Prod.mk.injEq] at heret
    obtain ⟨heret1, _⟩ := heret
    have hemap : eout.1 = edgeOut2.2.2 := by
      rw [← heret1]
    rw [← hemap]
    exact relationshipsLoop_unchanged rels2 m ⟨[], [], 0, 0⟩ tr4 heloop hall

/-- C9, witness: the node run over the single type `a` followed by an edge
run referencing `a` and a fresh `b` keeps all keys distinct, and an edge run
whose endpoints are both mapped returns the mapping unchanged. -/
theorem claim9_mapping_amended_witness :
    ((okD (createProcessorsFromRelationships autoCallback [relChild]
          (okD (createProcessorsFromTopology autoCallback [typeA] none [] [])
            (([], [], []), [])).1.2.2 [])
        (([], [], []), [])).1.2.2.map Prod.fst).Nodup
  ∧ (okD (createProcessorsFromRelationships autoCallback [relChild]
        [("a", "A"), ("b", "B")] []) (([], [], []), [])).1.2.2
      = [("a", "A"), ("b", "B")] := by
  constructor
  · exact (claim9_mapping_amended autoCallback autoCallback autoCallback [typeA] none [] [] []
      (okD (createProcessorsFromTopology autoCallback [typeA] none [] [])
        (([], [], []), [])).1
      (okD (createProcessorsFromTopology autoCallback [typeA] none [] [])
        (([], [], []), [])).2
      [relChild] [relChild]
      (okD (createProcessorsFromRelationships autoCallback [relChild]
          (okD (createProcessorsFromTopology autoCallback [typeA] none [] [])
            (([], [], []), [])).1.2.2 [])
        (([], [], []), [])).1
      (okD (createProcessorsFromRelationships autoCallback [relChild]
        [("a", "A"), ("b", "B")] []) (([], [], []), [])).1
      (okD (createProcessorsFromRelationships autoCallback [relChild]
          (okD (createProcessorsFromTopology autoCallback [typeA] none [] [])
            (([], [], []), [])).1.2.2 [])
        (([], [], []), [])).2
      (okD (createProcessorsFromRelationships autoCallback [relChild]
        [("a", "A"), ("b", "B")] []) (([], [], []), [])).2
      [("a", "A"), ("b", "B")]).1 (by decide) rfl rfl
  · exact (claim9_mapping_amended autoCallback autoCallback autoCallback [typeA] none [] [] []
      (okD (createProcessorsFromTopology autoCallback [typeA] none [] [])
        (([], [], []), [])).1
      (okD (createProcessorsFromTopology autoCallback [typeA] none [] [])
        (([], [], []), [])).2
      [relChild] [relChild]
      (okD (createProcessorsFromRelationships autoCallback [relChild]
          (okD (createProcessorsFromTopology autoCallback [typeA] none [] [])
            (([], [], []), [])).1.2.2 [])
        (([], [], []), [])).1
      (okD (createProcessorsFromRelationships autoCallback [relChild]
        [("a", "A"), ("b", "B")] []) (([], [], []), [])).1
      (okD (createProcessorsFromRelationships autoCallback [relChild]
          (okD (createProcessorsFromTopology autoCallback [typeA] none [] [])
            (([], [], []), [])).1.2.2 [])
        (([], [], []), [])).2
      (okD (createProcessorsFromRelationships autoCallback [relChild]
        [("a", "A"), ("b", "B")] []) (([], [], []), [])).2
      [("a", "A"), ("b", "B")]).2 (by decide) rfl

/-! ### Cancellation aborts at the first unanswered call -/

theorem allAnswered_append {tr : List Call} {c : Call} (h : AllAnswered tr)
    (hc : answeredCall c = true) : AllAnswered (tr ++ [c]) := by
  intro x hx
  rcases List.mem_append.mp hx with hx | hx
  · exact h x hx
  · rw [List.mem_singleton.mp hx]
    exact hc

theorem aborts_askInput (cb : Callback) (tr : List Call) (p s : String) (h : AllAnswered tr) :
    AbortsAtFirstUnanswered (askInput cb tr p s) := by
  cases hc : cb tr.length p s with
  | none =>
    simp only [askInput, hc]
    exact ⟨tr, _, rfl, h, by simp [answeredCall]⟩
  | some s0 =>
    by_cases hs : s0 = ""
    · subst hs
      simp only [askInput, hc, reduceIte]
      exact ⟨tr, _, rfl, h, by simp [answeredCall]⟩
    · simp only [askInput, hc, hs, reduceIte]
      exact allAnswered_append h (by simp [answeredCall, hs])

theorem aborts_cBind {α β : Type} {r : CompileM α} {k : α → List Call → CompileM β}
    (h1 : AbortsAtFirstUnanswered r)
    (h2 : ∀ v tw, r = .ok (v, tw) → AllAnswered tw → AbortsAtFirstUnanswered (k v tw)) :
    AbortsAtFirstUnanswered (cBind r k) := by
  cases hr : r with
  | error e =>
    obtain ⟨e1, e2⟩ := e
    have h1e := hr ▸ h1
    cases e1 with
    | cancelled => exact h1e
    | missingTopology => exact h1e
    | unknownRelationship s => exact h1e
  | ok p =>
    obtain ⟨v, tw⟩ := p
    have h1o := hr ▸ h1
    exact h2 v tw hr h1o

theorem aborts_processMetricsSource (cb : Callback) (type : TopologyType) (newName : String)
    (source : SourceDef) (rule : RuleDef) (metrics : Option (List MetricMetadata))
    (counter : Nat) (extSet : List String) (tr : List Call) (h : AllAnswered tr) :
    AbortsAtFirstUnanswered
      (processMetricsSource cb type newName source rule metrics counter extSet tr) := by
  unfold processMetricsSource
  refine aborts_cBind (aborts_askInput cb tr _ _ h) ?_
  intro v tw _ hall
  simp only []
  split
  · exact hall
  · refine aborts_cBind (aborts_askInput cb tw _ _ hall) ?_
    intro v2 tw2 _ hall2
    exact hall2

theorem aborts_processLogsSource (cb : Callback) (type : TopologyType) (newName : String)
    (source : SourceDef) (rule : RuleDef)
    (counter : Nat) (extSet : List String) (tr : List Call) (h : AllAnswered tr) :
    AbortsAtFirstUnanswered
      (processLogsSource cb type newName source rule counter extSet tr) := by
  unfold processLogsSource
  refine aborts_cBind (aborts_askInput cb tr _ _ h) ?_
  intro v tw _ hall
  simp only []
  split
  · exact hall
  · refine aborts_cBind (aborts_askInput cb tw _ _ hall) ?_
    intro v2 tw2 _ hall2
    exact hall2

theorem aborts_sourcesLoop (cb : Callback) (type : TopologyType) (newName : String)
    (rule : RuleDef) (metrics : Option (List MetricMetadata)) (sources : List SourceDef)
    (acc : TopoAcc) (tr : List Call) (h : AllAnswered tr) :
    AbortsAtFirstUnanswered (sourcesLoop cb type newName rule metrics sources acc tr) := by
  induction sources generalizing acc tr with
  | nil => exact h
  | cons source rest ih =>
    unfold sourcesLoop
    split
    · refine aborts_cBind
        (aborts_processMetricsSource cb type newName source rule metrics _ _ tr h) ?_
      intro v tw _ hall
      exact ih _ tw hall
    · split
      · refine aborts_cBind
          (aborts_processLogsSource cb type newName source rule _ _ tr h) ?_
        intro v tw _ hall
        exact ih _ tw hall
      · exact ih acc tr h

theorem aborts_rulesLoop (cb : Callback) (type : TopologyType) (newName : String)
    (metrics : Option (List MetricMetadata)) (rules : List RuleDef)
    (acc : TopoAcc) (tr : List Call) (h : AllAnswered tr) :
    AbortsAtFirstUnanswered (rulesLoop cb type newName metrics rules acc tr) := by
  induction rules generalizing acc tr with
  | nil => exact h
  | cons rule rest ih =>
    unfold rulesLoop
    refine aborts_cBind (aborts_sourcesLoop cb type newName rule metrics rule.sources acc tr h)
      ?_
    intro v tw _ hall
    exact ih _ tw hall

theorem aborts_typesLoop (cb : Callback) (metrics : Option (List MetricMetadata))
    (types : List TopologyType) (mapping : List (String × String)) (acc : TopoAcc)
    (tr : List Call) (h : AllAnswered tr) :
    AbortsAtFirstUnanswered (typesLoop cb metrics types mapping acc tr) := by
  induction types generalizing mapping acc tr with
  | nil => exact h
  | cons type rest ih =>
    unfold typesLoop
    refine aborts_cBind (aborts_askInput cb tr _ _ h) ?_
    intro v tw _ hall
    refine aborts_cBind (aborts_rulesLoop cb type v metrics type.rules acc tw hall) ?_
    intro v2 tw2 _ hall2
    exact ih _ _ tw2 hall2

theorem aborts_createProcessorsFromTopology (cb : Callback) (types : List TopologyType)
    (metrics : Option (List MetricMetadata)) (mapping : List (String × String))
    (tr : List Call) (h : AllAnswered tr) :
    AbortsAtFirstUnanswered (createProcessorsFromTopology cb types metrics mapping tr) := by
  unfold createProcessorsFromTopology
  refine aborts_cBind (aborts_typesLoop cb metrics types mapping _ tr h) ?_
  intro v tw _ hall
  exact hall

theorem aborts_processMetricsRelationship (cb : Callback) (relationship : RelationshipDef)
    (fromTypeName toTypeName edgeType : String) (source : SourceDef) (counter : Nat)
    (tr : List Call) (h : AllAnswered tr) :
    AbortsAtFirstUnanswered
      (processMetricsRelationship cb relationship fromTypeName toTypeName edgeType source
        counter tr) := by
  unfold processMetricsRelationship
  refine aborts_cBind (aborts_askInput cb tr _ _ h) ?_
  intro v tw _ hall
  exact hall

theorem aborts_processLogsRelationship (cb : Callback) (relationship : RelationshipDef)
    (fromTypeName toTypeName edgeType : String) (source : SourceDef) (counter : Nat)
    (tr : List Call) (h : AllAnswered tr) :
    AbortsAtFirstUnanswered
      (processLogsRelationship cb relationship fromTypeName toTypeName edgeType source
        counter tr) := by
  unfold processLogsRelationship
  refine aborts_cBind (aborts_askInput cb tr _ _ h) ?_
  intro v tw _ hall
  exact hall

theorem aborts_relSourcesLoop (cb : Callback) (relationship : RelationshipDef)
    (fromTypeName toTypeName edgeType : String) (sources : List SourceDef)
    (acc : EdgeAcc) (tr : List Call) (h : AllAnswered tr) :
    AbortsAtFirstUnanswered
      (relSourcesLoop cb relationship fromTypeName toTypeName edgeType sources acc tr) := by
  induction sources generalizing acc tr with
  | nil => exact h
  | cons source rest ih =>
    unfold relSourcesLoop
    split
    · refine aborts_cBind
        (aborts_processMetricsRelationship cb relationship fromTypeName toTypeName edgeType
          source _ tr h) ?_
      intro v tw _ hall
      exact ih _ tw hall
    · split
      · refine aborts_cBind
          (aborts_processLogsRelationship cb relationship fromTypeName toTypeName edgeType
            source _ tr h) ?_
        intro v tw _ hall
        exact ih _ tw hall
      · exact ih acc tr h

theorem aborts_relationshipsLoop (cb : Callback) (rels : List RelationshipDef)
    (mapping : List (String × String)) (acc : EdgeAcc) (tr : List Call)
    (h : AllAnswered tr) :
    AbortsAtFirstUnanswered (relationshipsLoop cb rels mapping acc tr) := by
  induction rels generalizing mapping acc tr with
  | nil => exact h
  | cons rel rest ih =>
    unfold relationshipsLoop
    have haborts : ∀ (m : List (String × String)) (prompt : String) (t : String)
        (tr0 : List Call), AllAnswered tr0 →
        AbortsAtFirstUnanswered (resolveTypeName cb m t prompt tr0) := by
      intro m prompt t tr0 h0
      unfold resolveTypeName
      split
      · exact h0
      · refine aborts_cBind (aborts_askInput cb tr0 _ _ h0) ?_
        intro v tw _ hall
        exact hall
    refine aborts_cBind (haborts mapping _ rel.fromType tr h) ?_
    intro v1 tw1 _ hall1
    refine aborts_cBind (haborts v1.2 _ rel.toType tw1 hall1) ?_
    intro v2 tw2 _ hall2
    split
    · exact hall2
    · refine aborts_cBind (aborts_askInput cb tw2 _ _ hall2) ?_
      intro v3 tw3 _ hall3
      refine aborts_cBind
        (aborts_relSourcesLoop cb rel v1.1 v2.1 v3 rel.sources acc tw3 hall3) ?_
      intro v4 tw4 _ hall4
      exact ih _ _ tw4 hall4

theorem aborts_createProcessorsFromRelationships (cb : Callback)
    (rels : List RelationshipDef) (mapping : List (String × String)) (tr : List Call)
    (h : AllAnswered tr) :
    AbortsAtFirstUnanswered (createProcessorsFromRelationships cb rels mapping tr) := by
  unfold createProcessorsFromRelationships
  refine aborts_cBind (aborts_relationshipsLoop cb rels mapping _ tr h) ?_
  intro v tw _ hall
  exact hall

/-! ## C5 — a "no answer" from the port aborts the whole compilation -/

/-- C5: for every extension and port, the compilation result aborts at the
first unanswered resolution-port call: a successful run answered every call
it made; a cancellation error happens exactly at the first call the port
answered with `null` (or `""`) — every earlier call was answered, no later
call is made, and the caller receives only the error, never a partial
processor list (the `Except` carries either the full result or the error,
and all processors accumulated before the cancellation are discarded with
the aborted run). -/
theorem claim5_cancellation_aborts (cb : Callback) (extension : ExtensionStub) :
    AbortsAtFirstUnanswered (convertTopologyToOpenPipeline cb extension) := by
  unfold convertTopologyToOpenPipeline
  have hnil : AllAnswered [] := by
    intro c hc
    exact absurd hc (List.not_mem_nil c)
  cases extension.topology with
  | none => exact hnil
  | some topology =>
    refine aborts_cBind ?_ ?_
    · cases topology.types with
      | some types => exact aborts_createProcessorsFromTopology cb types extension.metrics [] [] hnil
      | none => exact hnil
    · intro v tw _ hall
      refine aborts_cBind ?_ ?_
      · cases topology.relationships with
        | some rels => exact aborts_createProcessorsFromRelationships cb rels v.2.2 tw hall
        | none => exact hall
      · intro v2 tw2 _ hall2
        exact hall2

end Smartscape
